import Mathlib

/-!
Verification of the deterministic core of the `real-estate-agent` repository:
the turn-level routing state machine (`src/graph/flow.py`, `src/graph/nodes.py`),
the guardrail detectors (`src/graph/guards.py`), the entity/time/metric
resolution engine (`src/graph/resolvers.py`) and the code safety gate
(`src/contracts/policies.py`, `src/services/codegen_service.py`).

External collaborators (the LLM calls, the pandas execution backend and the
dataset loader) are modelled as explicit oracle parameters: each node receives
the collaborator's outcome (`Except`) instead of performing the call.  Row
payloads of dataframes are abstracted to their row count, which is the only
aspect the routing logic inspects.  All string processing is modelled over the
ASCII fragment the source manipulates.
-/

/-! ### Python-style string primitives -/

/-- Python `\s` / `str.strip` whitespace over the ASCII range
(space, tab, newline, carriage return, vertical tab, form feed). -/
def isPySpace (c : Char) : Bool :=
  c = ' ' || c = '\t' || c = '\n' || c = '\r' || c = '\x0b' || c = '\x0c'

/-- Python `str.strip()`: drop leading and trailing whitespace. -/
def pyStrip (s : String) : String :=
  String.mk (((s.data.dropWhile isPySpace).reverse.dropWhile isPySpace).reverse)

/-- `needle` occurs as a contiguous substring of `hay` (Python `in` on `str`). -/
def isSubstrChars (needle hay : List Char) : Bool :=
  hay.tails.any (fun t => needle.isPrefixOf t)

/-- Python substring containment `needle in hay`. -/
def pyContains (hay needle : String) : Bool :=
  isSubstrChars needle.data hay.data

/-- ASCII word character for the regex `\b` / `\w` assertions. -/
def isWordChar (c : Char) : Bool :=
  c.isAlphanum || c = '_'

/-- ASCII lower-casing (Python `str.lower` restricted to ASCII; non-ASCII
letters never reach the `[a-z0-9]` vocabulary either way). -/
def pyLower (s : String) : String :=
  String.mk (s.data.map Char.toLower)

/-- Split on a single separator character, keeping empty segments
(Python `str.split(sep)`). -/
def splitOnCharAux (sep : Char) : List Char → List Char → List String
  | cur, [] => [String.mk cur.reverse]
  | cur, c :: cs =>
    if c = sep then String.mk cur.reverse :: splitOnCharAux sep [] cs
    else splitOnCharAux sep (c :: cur) cs

def splitOnChar (sep : Char) (s : String) : List String :=
  splitOnCharAux sep [] s.data

/-- `f"{n:02d}"`: zero-pad a month number to two digits. -/
def pad2 (n : Nat) : String :=
  if n < 10 then "0" ++ toString n else toString n

/-- Number of maximal runs of characters satisfying `p`
(the length of Python `re.findall(r"[X]+", s)` for the class `X`). -/
def countRunsAux (p : Char → Bool) : Bool → List Char → Nat
  | _, [] => 0
  | prev, c :: cs =>
    (if p c && !prev then 1 else 0) + countRunsAux p (p c) cs

def countRuns (p : Char → Bool) (cs : List Char) : Nat :=
  countRunsAux p false cs

/-- Maximal runs of characters satisfying `p` (Python `re.findall` of `[X]+`). -/
def runsOf (p : Char → Bool) : List Char → List (List Char)
  | [] => []
  | c :: cs =>
    let r := runsOf p cs
    if p c then
      match cs with
      | d :: _ =>
        if p d then
          match r with
          | w :: ws => (c :: w) :: ws
          | [] => [[c]]
        else [c] :: r
      | [] => [[c]]
    else r

/-- `_normalize_text` (`src/graph/resolvers.py`): lower-case, collapse every
run of non-`[a-z0-9]` characters to a single space, and strip.  Equivalently:
the maximal `[a-z0-9]` runs of the lower-cased text joined by single spaces. -/
def normalizeText (s : String) : String :=
  String.intercalate " "
    ((runsOf (fun c => c.isLower || c.isDigit) (pyLower s).data).map String.mk)

/-! ### A small backtracking regex engine

Only the constructs used by the source's patterns are supported:
literals, the any-char dot (`.`, not matching newline), character classes,
`\s`, the word boundary `\b`, sequencing, alternation, `*` and `?`.
Matching is existential (as `re.search`), so greedy/lazy order is irrelevant.
-/

inductive RE where
  | emp : RE
  | lit : Char → RE
  | anyNoNL : RE
  | cls : List Char → RE
  | spaceC : RE
  | wb : RE
  | seq : RE → RE → RE
  | alt : RE → RE → RE
  | star : RE → RE
  | opt : RE → RE
deriving Repr

/-- Structural size of a regex, used to compute a sufficient fuel bound. -/
def reSize : RE → Nat
  | .seq a b => reSize a + reSize b + 1
  | .alt a b => reSize a + reSize b + 1
  | .star r => reSize r + 1
  | .opt r => reSize r + 1
  | _ => 1

/-- CPS backtracking matcher.  `prev` is the character just before the current
position (for `\b`), `k` the continuation.  `fuel` decreases on every
recursive call (keeping the recursion structural); the nesting depth of calls
is bounded by `(reSize re + 1) * (input length + 1) + 1` since every `star`
iteration must consume input, so the fuel supplied by `reSearch` is complete. -/
def reMatch : Nat → RE → Option Char → List Char →
    (Option Char → List Char → Bool) → Bool
  | 0, _, _, _, _ => false
  | _ + 1, .emp, prev, s, k => k prev s
  | _ + 1, .lit _, _, [], _ => false
  | _ + 1, .lit c, _, x :: xs, k => x == c && k (some x) xs
  | _ + 1, .anyNoNL, _, [], _ => false
  | _ + 1, .anyNoNL, _, x :: xs, k => x != '\n' && k (some x) xs
  | _ + 1, .cls _, _, [], _ => false
  | _ + 1, .cls cs, _, x :: xs, k => cs.contains x && k (some x) xs
  | _ + 1, .spaceC, _, [], _ => false
  | _ + 1, .spaceC, _, x :: xs, k => isPySpace x && k (some x) xs
  | _ + 1, .wb, prev, s, k =>
    (match prev, s with
     | none, [] => false
     | none, c :: _ => isWordChar c
     | some p, [] => isWordChar p
     | some p, c :: _ => isWordChar p != isWordChar c) && k prev s
  | fuel + 1, .seq a b, prev, s, k =>
    reMatch fuel a prev s (fun p s2 => reMatch fuel b p s2 k)
  | fuel + 1, .alt a b, prev, s, k =>
    reMatch fuel a prev s k || reMatch fuel b prev s k
  | fuel + 1, .opt a, prev, s, k =>
    k prev s || reMatch fuel a prev s k
  | fuel + 1, .star r, prev, s, k =>
    k prev s ||
      reMatch fuel r prev s (fun p s2 =>
        decide (s2.length < s.length) && reMatch fuel (.star r) p s2 k)

/-- Try a match starting at every position (Python `re.search`). -/
def reSearchAux (re : RE) (fuel : Nat) : Option Char → List Char → Bool
  | prev, [] => reMatch fuel re prev [] (fun _ _ => true)
  | prev, c :: cs =>
    reMatch fuel re prev (c :: cs) (fun _ _ => true) ||
      reSearchAux re fuel (some c) cs

def reSearch (re : RE) (s : String) : Bool :=
  reSearchAux re ((reSize re + 2) * (s.data.length + 2)) none s.data

/-- A sequence of literal characters. -/
def lits (s : String) : RE :=
  s.data.foldr (fun c acc => RE.seq (RE.lit c) acc) RE.emp

/-- n-ary alternation. -/
def altN : List RE → RE
  | [] => RE.emp
  | [r] => r
  | r :: rs => RE.alt r (altN rs)

def reSeqN : List RE → RE
  | [] => RE.emp
  | [r] => r
  | r :: rs => RE.seq r (reSeqN rs)

/-! ### Constants (`config/constants.py`) -/

def MSG_NOT_PRESENT : String :=
  "The requested information is not present in the dataset"

def MSG_OUT_OF_SCOPE : String :=
  "I am a real estate asset manager agent, please ask me questions about real estate assets in my base"

def MSG_CANNOT_PROCEED : String := "Cannot proceed with this request"

def MSG_GIBBERISH : String := "I don't understand the question, please rephrase it"

def MSG_MULTIPLE_QUESTION : String :=
  "Please, don't ask more than one question at a time. Choose one and ask again"

def INTENT_DATASET_KNOWLEDGE : String := "dataset_knowledge"
def INTENT_DEFINITIONS : String := "definitions"
def INTENT_GENERAL_KNOWLEDGE : String := "general_knowledge"
def INTENT_AMBIGUOUS : String := "ambiguous"
def INTENT_ADVERSARIAL : String := "adversarial"
def INTENT_GIBBERISH : String := "gibberish"

/-- `ADVERSARIAL_MARKERS` (`config/constants.py`), in source order. -/
def ADVERSARIAL_MARKERS : List String :=
  [ "ignore previous instructions", "ignore all previous", "disregard previous",
    "forget your instructions", "forget previous instructions", "forget",
    "override your instructions", "your new instructions", "your actual instructions",
    "your real instructions", "new persona", "act as", "you are now",
    "pretend you are", "pretend to be", "roleplay as", "simulate being",
    "you must now", "from now on you", "your previous instructions don't apply",
    "dan mode", "jailbreak", "developer mode", "god mode", "unrestricted mode",
    "no restrictions", "without restrictions", "bypass your", "bypass restrictions",
    "disable your", "disable safety", "turn off your", "remove your restrictions",
    "you have no restrictions", "you have no limits", "unlimited mode",
    "reveal your prompt", "show your instructions", "print your system prompt",
    "repeat your instructions", "what are your instructions", "ignore your system",
    "system prompt", "initial prompt", "base prompt", "original instructions",
    "###", "<<<", ">>>", "---instructions---", "[system]", "[user]", "[assistant]",
    "<|im_start|>", "<|im_end|>", "<|endoftext|>", "human:", "assistant:",
    "your true self", "your real self", "what you really think", "speak freely",
    "be honest with me", "tell me the truth", "drop the act", "stop pretending",
    "you don't have to follow", "you are allowed to", "you are free to",
    "hypothetically speaking", "in a hypothetical", "for educational purposes",
    "for research purposes", "as a thought experiment", "just pretend",
    "it's just fiction", "it's only a story", "no one will know",
    "base64", "rot13", "decode this", "translate from base",
    "ignore the above", "ignore everything above", "ignore all above",
    "disregard the above", "forget the above", "the above doesn't matter",
    "instead do", "instead, do",
    "delete", "delete your instructions", "delete previous instructions",
    "erase your instructions", "erase previous instructions",
    "remove your instructions", "remove previous instructions",
    "clear your instructions", "clear previous instructions",
    "reset your instructions", "reset to default", "wipe your instructions",
    "start fresh", "start over with", "ignore all instructions",
    "ignore your instructions",
    "new task:", "new instructions:", "updated instructions:",
    "revised instructions:", "correction:", "important override",
    "priority override", "admin override", "sudo", "as root",
    "complete the following", "continue from here",
    "the rest of your instructions say",
    "the prompt says", "your prompt says", "according to your prompt",
    "your hidden instructions", "your secret instructions", "your real prompt" ]

/-! ### Guardrail detectors (`src/graph/guards.py`) -/

/-- `split_questions`: split on runs of `?` and keep non-empty trimmed parts.
Splitting on a single `?` is equivalent after the non-empty filter. -/
def splitQuestions (userQuery : String) : List String :=
  ((splitOnChar '?' userQuery).map pyStrip).filter (fun p => p ≠ "")

/-- The conjunction-before-interrogative pattern of `detect_multiple_questions`:
`\b(and|also|then)\s+(what|which|who|how|when|where|why|is|are|can|could|would|should|do|does)\b`. -/
def conjunctionRE : RE :=
  reSeqN
    [ RE.wb, altN [lits "and", lits "also", lits "then"],
      RE.seq RE.spaceC (RE.star RE.spaceC),
      altN [lits "what", lits "which", lits "who", lits "how", lits "when",
            lits "where", lits "why", lits "is", lits "are", lits "can",
            lits "could", lits "would", lits "should", lits "do", lits "does"],
      RE.wb ]

def detectMultipleQuestions (userQuery : String) : Bool :=
  if (splitQuestions userQuery).length > 1 then true
  else reSearch conjunctionRE (pyLower userQuery)

def detectAdversarial (text : String) : Bool :=
  ADVERSARIAL_MARKERS.any (fun marker => pyContains (pyLower text) marker)

/-- `detect_gibberish`: empty trimmed text, or no alphabetic run and no digit,
or alphanumeric ratio below 0.30 with at most one alphabetic run.  The float
comparison `ratio < 0.30` is exact on these small rationals and is modelled as
`10 * wordlike < 3 * nonspace`. -/
def detectGibberish (text : String) : Bool :=
  let stripped := pyStrip text
  if stripped = "" then true
  else
    let alphaTokens := countRuns Char.isAlpha stripped.data
    let hasDigits := stripped.data.any Char.isDigit
    if alphaTokens == 0 && !hasDigits then true
    else
      let nonSpaceChars := stripped.data.filter (fun c => !isPySpace c)
      if nonSpaceChars ≠ [] then
        let wordlike := (nonSpaceChars.filter Char.isAlphanum).length
        if 10 * wordlike < 3 * nonSpaceChars.length && alphaTokens ≤ 1 then true
        else false
      else false

/-- `route_query` decision payload (guard-stage routing, pre-LLM). -/
structure IntentDecision where
  intent : String
  action : String
  fallback_message : String := ""
  clarification_prompt : String := ""
  reason : String := ""
deriving Repr

def routeQuery (text : String) : IntentDecision :=
  if detectAdversarial text then
    { intent := INTENT_ADVERSARIAL, action := "fallback",
      fallback_message := MSG_CANNOT_PROCEED, reason := "adversarial content" }
  else if detectGibberish text then
    { intent := INTENT_GIBBERISH, action := "fallback",
      fallback_message := MSG_GIBBERISH, reason := "unparseable" }
  else
    { intent := INTENT_DATASET_KNOWLEDGE, action := "continue",
      fallback_message := "", reason := "non-exit query; defer to LLM intent classifier" }

/-! ### Code safety gate (`src/contracts/policies.py`, `FORBIDDEN_CODE_PATTERNS`) -/

/-- `\bXYZ` prefix-bounded literal pattern. -/
def wbl (s : String) : RE := RE.seq RE.wb (lits s)

/-- `\bXYZ\b` fully word-bounded literal pattern. -/
def wbw (s : String) : RE := reSeqN [RE.wb, lits s, RE.wb]

/-- The SQL-write pattern
`\b\.execute\s*\(\s*['\"]?\s*(INSERT|UPDATE|DELETE|DROP|CREATE|ALTER|TRUNCATE)`. -/
def sqlWriteRE : RE :=
  reSeqN
    [ RE.wb, lits ".execute", RE.star RE.spaceC, RE.lit '(', RE.star RE.spaceC,
      RE.opt (RE.cls ['\'', '"']), RE.star RE.spaceC,
      altN [lits "INSERT", lits "UPDATE", lits "DELETE", lits "DROP",
            lits "CREATE", lits "ALTER", lits "TRUNCATE"] ]

/-- The class-escape pattern `__class__.*__init__.*__globals__`. -/
def classEscapeRE : RE :=
  reSeqN [lits "__class__", RE.star RE.anyNoNL, lits "__init__",
          RE.star RE.anyNoNL, lits "__globals__"]

/-- `FORBIDDEN_CODE_PATTERNS`, in source order. -/
def FORBIDDEN_CODE_PATTERNS : List RE :=
  [ lits "__import__", wbw "import", wbl "eval(", wbl "exec(", wbl "compile(",
    wbl "execfile(", wbl "open(", wbl "os.", wbl "pathlib.", wbl "shutil.",
    wbl "glob.", wbl "tempfile.", wbl "fnmatch.", wbl "fileinput.",
    wbl "subprocess.", wbl "os.system(", wbl "os.popen(", wbl "os.spawn",
    wbl "os.exec", wbl "pexpect.", wbl "pty.", wbl "commands.", wbl "socket.",
    wbl "urllib.", wbl "urllib2.", wbl "requests.", wbl "httplib.",
    wbl "http.client", wbl "ftplib.", wbl "smtplib.", wbl "imaplib.",
    wbl "paramiko.", wbl "twisted.", wbl "aiohttp.", wbl "httpx.",
    wbl "pickle.", wbl "cPickle.", wbl "marshal.", wbl "shelve.",
    wbl "yaml.load(", wbl "jsonpickle.", wbl "getattr(", wbl "setattr(",
    wbl "delattr(", wbl "hasattr(", wbl "vars(", wbl "dir(", wbl "globals(",
    wbl "locals(", wbl "__builtins__", wbl "__globals__", wbl "__locals__",
    wbl "__code__", wbl "__class__", wbl "__bases__", wbl "__subclasses__(",
    wbl "__mro__", wbl "ast.", wbl "dis.", wbl "inspect.", wbl "types.",
    wbl "ctypes.", wbl "cffi.", wbl "multiprocessing.", wbl "threading.",
    wbl "concurrent.", wbl "asyncio.", wbl "signal.", wbl "os.environ",
    wbl "os.getenv(", wbl "dotenv.", wbl "configparser.", sqlWriteRE,
    wbw "DROP", wbw "TRUNCATE", wbw "ALTER", wbl "shlex.", classEscapeRE,
    wbl "breakpoint(", wbl "input(", wbl "memoryview(", wbl "__debug__" ]

/-- Whether any forbidden pattern matches the generated code
(the scan loop of `execute_generated_python_code`). -/
def matchesForbidden (pythonCode : String) : Bool :=
  FORBIDDEN_CODE_PATTERNS.any (fun pat => reSearch pat pythonCode)

/-- Result of executing non-rejected generated code.  The rows of `result_df`
are abstracted to their record count; `filtered_row_count` is present exactly
when the code assigned a dataframe to `filtered_df`. -/
structure ExecRes where
  result_df : Option Nat
  filtered_row_count : Option Nat
deriving Repr

/-- `execute_generated_python_code` (`src/services/codegen_service.py`).
`execRun` is the outcome of the restricted `exec` of the (non-empty, not
forbidden) code, including raised exceptions; the gate is checked first, so a
forbidden string yields the generic error before the collaborator is consulted. -/
def executeGeneratedPythonCode (execRun : Except String ExecRes)
    (pythonCode : String) : Except String ExecRes :=
  if pyStrip pythonCode = "" then .ok { result_df := none, filtered_row_count := none }
  else if matchesForbidden pythonCode then
    .error "Generated code contains forbidden operations."
  else execRun

/-! ### Data model (`src/contracts/models.py` schemas, profile shape) -/

structure Ranking where
  mode : String := "none"
  top_k : Option Int := none
deriving Repr

structure TimeScope where
  mode : String := "none"
  month : Option String := none
  quarter : Option String := none
  year : Option String := none
  column : Option String := none
  start : Option String := none
  endTok : Option String := none
  relative_period : Option String := none
deriving Repr

/-- `ExtractedEntitiesSchema`: the entities payload is always a full
`model_dump`, so every key is present with its schema type. -/
structure Entities where
  entity_name : List String := []
  property_name : List String := []
  tenant_name : List String := []
  ledger_type : List String := []
  ledger_group : List String := []
  ledger_category : List String := []
  ledger_code : List String := []
  ledger_description : List String := []
  ledger_raw_mentions : List String := []
  request_target : List String := []
  requested_metric : String := ""
  ranking : Ranking := {}
  time_scope : TimeScope := {}
  needs_clarification : Bool := false
  clarification_prompt : String := ""
deriving Repr

/-- Read an entities column by its dataset column name (`entities.get(column, [])`). -/
def Entities.getCol (e : Entities) (column : String) : List String :=
  if column = "entity_name" then e.entity_name
  else if column = "property_name" then e.property_name
  else if column = "tenant_name" then e.tenant_name
  else if column = "ledger_type" then e.ledger_type
  else if column = "ledger_group" then e.ledger_group
  else if column = "ledger_category" then e.ledger_category
  else if column = "ledger_code" then e.ledger_code
  else if column = "ledger_description" then e.ledger_description
  else []

/-- Write an entities column by its dataset column name (`entities[column] = vs`). -/
def Entities.setCol (e : Entities) (column : String) (vs : List String) : Entities :=
  if column = "entity_name" then { e with entity_name := vs }
  else if column = "property_name" then { e with property_name := vs }
  else if column = "tenant_name" then { e with tenant_name := vs }
  else if column = "ledger_type" then { e with ledger_type := vs }
  else if column = "ledger_group" then { e with ledger_group := vs }
  else if column = "ledger_category" then { e with ledger_category := vs }
  else if column = "ledger_code" then { e with ledger_code := vs }
  else if column = "ledger_description" then { e with ledger_description := vs }
  else e

/-- `DatasetProfile`: read-only snapshot.  `uniqueValues` maps a column name to
its recorded unique values (`unique_values.get(column, [])`, possibly holding
nulls); `supportedMetrics` maps a metric name to its `required_columns`. -/
structure DataProfile where
  columns : List String := []
  uniqueValues : String → List (Option String) := fun _ => []
  supportedMetrics : String → Option (List String) := fun _ => none
  min_month : Option String := none
  max_month : Option String := none
  min_quarter : Option String := none
  max_quarter : Option String := none
  min_year : Option String := none
  max_year : Option String := none

/-- `SUPPORTED_METRICS` (`config/metric_registry.py`), as name → required columns. -/
def SUPPORTED_METRICS : String → Option (List String)
  | "pnl" => some ["ledger_type", "profit"]
  | "revenue_total" => some ["ledger_type", "profit"]
  | "expenses_total" => some ["ledger_type", "profit"]
  | "net_pnl" => some ["ledger_type", "profit"]
  | "count" => some []
  | "sum_profit" => some ["profit"]
  | _ => none

/-- `MISSING_CHECK_COLUMNS` (`config/matching_rules.py`), in source order. -/
def MISSING_CHECK_COLUMNS : List String :=
  ["entity_name", "property_name", "tenant_name", "ledger_code",
   "ledger_type", "ledger_group", "ledger_category", "ledger_description"]

/-- The five ledger columns used by ledger rescue and raw-mention resolution. -/
def ledgerColumns : List String :=
  ["ledger_type", "ledger_group", "ledger_category", "ledger_code", "ledger_description"]

/-! ### Entity resolution (`src/graph/resolvers.py`) -/

/-- Append `v` under `key` in an insertion-ordered association list
(the build loop of `normalized_to_originals`). -/
def assocAppend (acc : List (String × List String)) (key : String) (v : String) :
    List (String × List String) :=
  match acc with
  | [] => [(key, [v])]
  | (k, vs) :: rest =>
    if k = key then (k, vs ++ [v]) :: rest else (k, vs) :: assocAppend rest key v

def assocFind (acc : List (String × List String)) (key : String) : Option (List String) :=
  match acc with
  | [] => none
  | (k, vs) :: rest => if k = key then some vs else assocFind rest key

/-- Stable insertion sort by string length (Python `sorted(..., key=len)`):
each element is inserted after all already-placed elements of length `≤` its
own, so equal lengths keep their relative order. -/
def insertByLen (x : String) : List String → List String
  | [] => [x]
  | y :: ys => if y.length ≤ x.length then y :: insertByLen x ys else x :: y :: ys

def sortByLen (l : List String) : List String :=
  l.foldl (fun acc x => insertByLen x acc) []

/-- First-occurrence deduplication (models Python `set(...)`; hash order is
unspecified in Python, and no claim depends on the tie order). -/
def dedupKeepFirstAux : List String → List String → List String
  | _, [] => []
  | seen, x :: xs =>
    if seen.contains x then dedupKeepFirstAux seen xs
    else x :: dedupKeepFirstAux (seen ++ [x]) xs

def dedupKeepFirst (l : List String) : List String :=
  dedupKeepFirstAux [] l

/-- One step of building `normalized_to_originals`. -/
def normAssocStep (acc : List (String × List String)) (value : String) :
    List (String × List String) :=
  let norm := normalizeText value
  if norm = "" then acc else assocAppend acc norm value

/-- The inner `_find_best_matches`: exact normalized lookup, else
bidirectional-substring matches deduplicated and sorted by length. -/
def findBestMatches (normalizedToOriginals : List (String × List String))
    (rawValue : String) : List String :=
  let normValue := normalizeText rawValue
  if normValue = "" then []
  else
    match assocFind normalizedToOriginals normValue with
    | some originals => originals
    | none =>
      let substringMatches := normalizedToOriginals.foldl
        (fun acc p =>
          if pyContains p.1 normValue || pyContains normValue p.1 then
            acc ++ p.2
          else acc) []
      if substringMatches ≠ [] then
        sortByLen (dedupKeepFirst substringMatches)
      else []

/-- Body of the per-request resolution loop. -/
def resolveValueStep (normalizedToOriginals : List (String × List String))
    (acc : List String × List String) (value : String) :
    List String × List String :=
  let rawValue := pyStrip value
  if rawValue = "" then acc
  else
    match findBestMatches normalizedToOriginals rawValue with
    | [] => (acc.1, acc.2 ++ [rawValue])
    | m :: _ => (acc.1 ++ [m], acc.2)

/-- Body of the final normalized-form deduplication loop (seen keys, output). -/
def dedupResolvedStep (acc : List String × List String) (item : String) :
    List String × List String :=
  let key := normalizeText item
  if key ≠ "" && !acc.1.contains key then (acc.1 ++ [key], acc.2 ++ [item])
  else acc

/-- `_resolve_requested_values`: resolve requested literals against the known
unique values by exact normalized match first, then bidirectional substring
containment with shortest-match preference; a compound request additionally
tries the space-joined concatenation. -/
def resolveRequestedValues (requestedValues : List String)
    (allowedRaw : List (Option String)) : List String × List String :=
  let allowedStrings := allowedRaw.filterMap id
  if allowedStrings = [] then (requestedValues, [])
  else
    let normalizedToOriginals := allowedStrings.foldl normAssocStep []
    let ru := requestedValues.foldl (resolveValueStep normalizedToOriginals) ([], [])
    let ru :=
      if requestedValues.length ≥ 2 then
        let joined := String.intercalate " "
          ((requestedValues.map pyStrip).filter (fun v => v ≠ ""))
        if joined ≠ "" then
          match findBestMatches normalizedToOriginals joined with
          | [] => ru
          | canonical :: _ =>
            let resolved :=
              if ru.1.contains canonical then ru.1
              else
                (ru.1.filter
                  (fun item => normalizeText item ≠ normalizeText canonical))
                  ++ [canonical]
            let unresolved := ru.2.filter
              (fun item => !pyContains (normalizeText canonical) (normalizeText item))
            (resolved, unresolved)
        else ru
      else ru
    ((ru.1.foldl dedupResolvedStep ([], [])).2, ru.2)

/-- `_is_explicit_identifier`: an absent value blocks only if it looks like a
genuine identifier — contains a digit, or is multi-token with some token
longer than two characters. -/
def isExplicitIdentifier (value : String) : Bool :=
  let normalized := normalizeText value
  if normalized = "" then false
  else if normalized.data.any Char.isDigit then true
  else
    let tokens := splitOnChar ' ' normalized
    if tokens.length = 1 then false
    else if tokens.all (fun token => token.length ≤ 2) then false
    else decide (tokens.length ≥ 2)

/-- Deduplicate `(column, value)` candidates by `(column, normalized value)`,
keeping the first occurrence. -/
def dedupCandidatesAux : List (String × String) → List (String × String) →
    List (String × String)
  | _, [] => []
  | seen, (col, v) :: rest =>
    let key := (col, normalizeText v)
    if seen.contains key then dedupCandidatesAux seen rest
    else (col, v) :: dedupCandidatesAux (key :: seen) rest

def dedupCandidates (cs : List (String × String)) : List (String × String) :=
  dedupCandidatesAux [] cs

/-- `_try_cross_column_ledger_rescue`: exact-normalized search over all five
ledger columns; succeeds only when exactly one deduplicated candidate exists. -/
def tryCrossColumnLedgerRescue (sourceColumn rawValue : String)
    (uniqueValues : String → List (Option String)) : Option (String × String) :=
  if !(ledgerColumns.contains sourceColumn) then none
  else
    let normalizedRaw := normalizeText rawValue
    if normalizedRaw = "" then none
    else
      let candidates := ledgerColumns.foldl (fun acc column =>
        acc ++ ((uniqueValues column).filterMap id).filterMap (fun allowedStr =>
          if normalizeText allowedStr = normalizedRaw then some (column, allowedStr)
          else none)) []
      match dedupCandidates candidates with
      | [cv] => some cv
      | _ => none

/-- Body of the per-absence rescue loop in `_missing_requested_values`: a
rescued value is appended to its destination column (skipping normalized
duplicates), an unrescued one stays absent. -/
def rescueStep (uniqueValues : String → List (Option String)) (column : String)
    (st : Entities × List String) (rawValue : String) : Entities × List String :=
  match tryCrossColumnLedgerRescue column rawValue uniqueValues with
  | none => (st.1, st.2 ++ [rawValue])
  | some (destinationColumn, canonicalValue) =>
    let destinationValues := st.1.getCol destinationColumn
    let destinationValues :=
      if destinationValues.any (fun existing =>
          normalizeText existing = normalizeText canonicalValue) then
        destinationValues
      else destinationValues ++ [canonicalValue]
    (st.1.setCol destinationColumn destinationValues, st.2)

/-- `_missing_requested_values`, one column step: resolve, write back, attempt
ledger rescue for absences, then keep only explicit-identifier absences. -/
def missingStep (uniqueValues : String → List (Option String))
    (acc : Entities × List (String × List String)) (column : String) :
    Entities × List (String × List String) :=
  let requested := acc.1.getCol column
  if requested = [] then acc
  else
    let res := resolveRequestedValues requested (uniqueValues column)
    let entities := acc.1.setCol column res.1
    let ea :=
      if res.2 ≠ [] then res.2.foldl (rescueStep uniqueValues column) (entities, [])
      else (entities, res.2)
    if ea.2 = [] then (ea.1, acc.2)
    else
      let explicitAbsent := ea.2.filter isExplicitIdentifier
      if explicitAbsent ≠ [] then (ea.1, acc.2 ++ [(column, explicitAbsent)])
      else (ea.1, acc.2)

/-- `_missing_requested_values`: fold the column step over `MISSING_CHECK_COLUMNS`,
returning the updated entities and the missing-value map. -/
def missingRequestedValues (entities : Entities) (p : DataProfile) :
    Entities × List (String × List String) :=
  MISSING_CHECK_COLUMNS.foldl (missingStep p.uniqueValues) (entities, [])

/-! ### Ledger raw-mention resolution (`_resolve_ledger_raw_mentions`) -/

inductive MentionOutcome where
  | skip : MentionOutcome
  | unresolvedM : MentionOutcome
  | resolvedM : String → String → MentionOutcome
deriving Repr, DecidableEq

/-- Exact-tier candidates: `(column, value)` pairs over the five ledger
columns whose normalized value equals the normalized mention. -/
def ledgerExactCandidates (uniqueValues : String → List (Option String))
    (rawNorm : String) : List (String × String) :=
  ledgerColumns.foldl (fun acc column =>
    acc ++ ((uniqueValues column).filterMap id).filterMap (fun canonical =>
      let canonicalNorm := normalizeText canonical
      if canonicalNorm = "" then none
      else if canonicalNorm = rawNorm then some (column, canonical)
      else none)) []

/-- Substring-tier candidates: the normalized mention is strictly contained in
the normalized value (the `elif raw_norm in canonical_norm` branch). -/
def ledgerSubstringCandidates (uniqueValues : String → List (Option String))
    (rawNorm : String) : List (String × String) :=
  ledgerColumns.foldl (fun acc column =>
    acc ++ ((uniqueValues column).filterMap id).filterMap (fun canonical =>
      let canonicalNorm := normalizeText canonical
      if canonicalNorm = "" then none
      else if canonicalNorm = rawNorm then none
      else if pyContains canonicalNorm rawNorm then some (column, canonical)
      else none)) []

/-- Per-mention classification of the raw-mention loop body: exactly one
deduplicated exact candidate resolves; otherwise exactly one substring
candidate (with zero exact) resolves; empty-normalizing mentions are skipped;
everything else is unresolved. -/
def classifyLedgerMention (uniqueValues : String → List (Option String))
    (raw : String) : MentionOutcome :=
  let rawValue := pyStrip raw
  if rawValue = "" then .skip
  else
    let rawNorm := normalizeText rawValue
    if rawNorm = "" then .skip
    else
      let exacts := dedupCandidates (ledgerExactCandidates uniqueValues rawNorm)
      let substrings :=
        dedupCandidates (ledgerSubstringCandidates uniqueValues rawNorm)
      match exacts, substrings with
      | [(c, v)], _ => .resolvedM c v
      | _ :: _ :: _, _ => .unresolvedM
      | [], [(c, v)] => .resolvedM c v
      | _, _ => .unresolvedM

/-- Body of the raw-mention loop: a resolved mention's canonical value is
appended to its destination column (skipping normalized duplicates); an
unresolved mention's trimmed text is collected. -/
def mentionStep (uniqueValues : String → List (Option String))
    (acc : Entities × List String) (raw : String) : Entities × List String :=
  match classifyLedgerMention uniqueValues raw with
  | .skip => acc
  | .unresolvedM => (acc.1, acc.2 ++ [pyStrip raw])
  | .resolvedM destinationColumn canonicalValue =>
    let destinationValues := acc.1.getCol destinationColumn
    let destinationValues :=
      if destinationValues.any (fun existing =>
          normalizeText existing = normalizeText canonicalValue) then
        destinationValues
      else destinationValues ++ [canonicalValue]
    (acc.1.setCol destinationColumn destinationValues, acc.2)

/-- `_resolve_ledger_raw_mentions`: resolve each raw mention, appending chosen
canonical values into their destination columns (skipping normalized-equal
duplicates), and store the unresolved remainder back into
`ledger_raw_mentions`.  Returns the updated entities and the unresolved list
(the returned missing map is non-empty iff the list is). -/
def resolveLedgerRawMentions (entities : Entities)
    (uniqueValues : String → List (Option String)) : Entities × List String :=
  let rawMentions := entities.ledger_raw_mentions
  if rawMentions = [] then (entities, [])
  else
    let eu := rawMentions.foldl (mentionStep uniqueValues) (entities, [])
    ({ eu.1 with ledger_raw_mentions := eu.2 }, eu.2)

/-! ### Time-scope normalization (`_resolve_relative_time_scope`) -/

/-- The recognized relative-period tokens. -/
def recognizedRelativePeriods : List String :=
  ["current_year", "last_year", "next_year",
   "current_quarter", "last_quarter", "next_quarter",
   "current_month", "last_month", "next_month"]

/-- `f"{year}-Q{quarter_index}"`. -/
def quarterToken (year : Int) (quarterIndex : Nat) : String :=
  s!"{year}-Q{quarterIndex}"

/-- `f"{year}-M{month:02d}"`. -/
def monthToken (year : Int) (month : Nat) : String :=
  s!"{year}-M" ++ pad2 month

/-- First half of `_resolve_relative_time_scope`: convert a recognized
relative period into an exact token against the current date `now = (year,
month)` with `month ∈ 1..12` (as `datetime.now()` guarantees). -/
def applyRelativePeriod (now : Int × Nat) (ts : TimeScope) : TimeScope :=
  let relativePeriod := pyLower (pyStrip (ts.relative_period.getD ""))
  if relativePeriod = "" then ts
  else
    let nowYear := now.1
    let nowMonth := now.2
    if relativePeriod = "current_year" then
      { mode := "exact", year := some (toString nowYear), quarter := none,
        month := none, column := none, start := none, endTok := none,
        relative_period := none }
    else if relativePeriod = "last_year" then
      { mode := "exact", year := some (toString (nowYear - 1)), quarter := none,
        month := none, column := none, start := none, endTok := none,
        relative_period := none }
    else if relativePeriod = "next_year" then
      { mode := "exact", year := some (toString (nowYear + 1)), quarter := none,
        month := none, column := none, start := none, endTok := none,
        relative_period := none }
    else if relativePeriod = "current_quarter" || relativePeriod = "last_quarter"
        || relativePeriod = "next_quarter" then
      let quarterIndex := (nowMonth - 1) / 3 + 1
      let yi : Int × Nat :=
        if relativePeriod = "last_quarter" then
          if quarterIndex - 1 = 0 then (nowYear - 1, 4)
          else (nowYear, quarterIndex - 1)
        else if relativePeriod = "next_quarter" then
          if quarterIndex + 1 = 5 then (nowYear + 1, 1)
          else (nowYear, quarterIndex + 1)
        else (nowYear, quarterIndex)
      { mode := "exact", quarter := some (quarterToken yi.1 yi.2), year := none,
        month := none, column := none, start := none, endTok := none,
        relative_period := none }
    else if relativePeriod = "current_month" || relativePeriod = "last_month"
        || relativePeriod = "next_month" then
      let ym : Int × Nat :=
        if relativePeriod = "last_month" then
          if nowMonth - 1 = 0 then (nowYear - 1, 12) else (nowYear, nowMonth - 1)
        else if relativePeriod = "next_month" then
          if nowMonth + 1 = 13 then (nowYear + 1, 1) else (nowYear, nowMonth + 1)
        else (nowYear, nowMonth)
      { mode := "exact", month := some (monthToken ym.1 ym.2), year := none,
        quarter := none, column := none, start := none, endTok := none,
        relative_period := none }
    else ts

/-- Second half of `_resolve_relative_time_scope`: canonical precedence
month > quarter > year, and the exact-with-no-value downgrade. -/
def canonicalizeTimeScope (ts : TimeScope) : TimeScope :=
  let mode := ts.mode
  let month := pyStrip (ts.month.getD "")
  let quarter := pyStrip (ts.quarter.getD "")
  let year := pyStrip (ts.year.getD "")
  if month ≠ "" || quarter ≠ "" || year ≠ "" then
    if month ≠ "" then
      { ts with
          mode := "exact", relative_period := none,
          month := some month, quarter := none, year := none }
    else if quarter ≠ "" then
      { ts with
          mode := "exact", relative_period := none,
          month := none, quarter := some quarter, year := none }
    else
      { ts with
          mode := "exact", relative_period := none,
          month := none, quarter := none, year := some year }
  else if mode = "exact" then
    { ts with mode := "none", relative_period := none }
  else ts

/-- `_resolve_relative_time_scope` on the entities record: normalize the time
scope and, when the final mode is exact, clear any pending clarification. -/
def resolveRelativeTimeScope (now : Int × Nat) (entities : Entities) : Entities :=
  let ts := canonicalizeTimeScope (applyRelativePeriod now entities.time_scope)
  let entities := { entities with time_scope := ts }
  if ts.mode = "exact" then
    { entities with needs_clarification := false, clarification_prompt := "" }
  else entities

/-! ### Time formatters and metric validation (`src/graph/resolvers.py`) -/

/-- Modelled from the spec: `config/month_labels.py` is not under `src/`; the
spec's formatter example ("month May 2025" rendered from `2025-M05`) fixes the
mapping `Mnn` → English month name used by `MONTH_LABELS`. -/
def MONTH_LABELS : List (String × String) :=
  [("M01", "January"), ("M02", "February"), ("M03", "March"), ("M04", "April"),
   ("M05", "May"), ("M06", "June"), ("M07", "July"), ("M08", "August"),
   ("M09", "September"), ("M10", "October"), ("M11", "November"),
   ("M12", "December")]

/-- `_format_month_token`: rewrite `YYYY-Mnn` to "<Month> YYYY" when the label
is known, otherwise return the value unchanged. -/
def formatMonthToken (value : String) : String :=
  match value.data with
  | [a, b, c, d, '-', 'M', e, f] =>
    if a.isDigit && b.isDigit && c.isDigit && d.isDigit
        && e.isDigit && f.isDigit then
      match MONTH_LABELS.lookup (String.mk ['M', e, f]) with
      | some name => name ++ " " ++ String.mk [a, b, c, d]
      | none => value
    else value
  | _ => value

/-- `_format_time_scope_request`. -/
def formatTimeScopeRequest (ts : TimeScope) : Option String :=
  if ts.mode ≠ "exact" then none
  else
    let month := pyStrip (ts.month.getD "")
    let quarter := pyStrip (ts.quarter.getD "")
    let year := pyStrip (ts.year.getD "")
    if month ≠ "" then some ("month " ++ month)
    else if quarter ≠ "" then some ("quarter " ++ quarter)
    else if year ≠ "" then some ("year " ++ year)
    else none

/-- `_format_available_time_range`. -/
def formatAvailableTimeRange (p : DataProfile) : Option String :=
  let minMonth := pyStrip (p.min_month.getD "")
  let maxMonth := pyStrip (p.max_month.getD "")
  if minMonth ≠ "" && maxMonth ≠ "" then
    some ("from " ++ formatMonthToken minMonth ++ " to " ++ formatMonthToken maxMonth)
  else
    let minQuarter := pyStrip (p.min_quarter.getD "")
    let maxQuarter := pyStrip (p.max_quarter.getD "")
    if minQuarter ≠ "" && maxQuarter ≠ "" then
      some ("from " ++ minQuarter ++ " to " ++ maxQuarter)
    else
      let minYear := pyStrip (p.min_year.getD "")
      let maxYear := pyStrip (p.max_year.getD "")
      if minYear ≠ "" && maxYear ≠ "" then
        some ("from " ++ minYear ++ " to " ++ maxYear)
      else none

/-- `_time_range_not_present_answer`. -/
def timeRangeNotPresentAnswer (entities : Entities) (p : DataProfile) :
    Option String :=
  match formatTimeScopeRequest entities.time_scope,
      formatAvailableTimeRange p with
  | some requested, some available =>
    some ("You are asking for information in " ++ requested ++
      ", but the information I have is " ++ available ++ ".")
  | _, _ => none

/-- `_is_supported_metric_request`: empty/`unknown` labels are always
eligible; registered metrics require all their required columns. -/
def isSupportedMetricRequest (entities : Entities) (p : DataProfile) : Bool :=
  let requestedMetric := pyLower (pyStrip entities.requested_metric)
  if requestedMetric = "" || requestedMetric = "unknown" then true
  else
    match p.supportedMetrics requestedMetric with
    | none => false
    | some requiredColumns =>
      requiredColumns.all (fun column => p.columns.contains column)

/-- `_definitions_intent_is_eligible`: a definitions question may not carry
any concrete value, request target, named metric, ranking, time scope or
pending clarification. -/
def definitionsIntentIsEligible (entities : Entities) : Bool :=
  let concreteListsEmpty :=
    [entities.entity_name, entities.property_name, entities.tenant_name,
     entities.ledger_type, entities.ledger_group, entities.ledger_category,
     entities.ledger_code, entities.ledger_description,
     entities.ledger_raw_mentions].all
      (fun vs => !vs.any (fun item => pyStrip item ≠ ""))
  if !concreteListsEmpty then false
  else if entities.request_target.any (fun item => pyStrip item ≠ "") then false
  else
    let requestedMetric := pyLower (pyStrip entities.requested_metric)
    if requestedMetric ≠ "" && requestedMetric ≠ "unknown" then false
    else if entities.ranking.mode ≠ "none" then false
    else if entities.ranking.top_k ≠ none then false
    else if entities.time_scope.mode ≠ "none" then false
    else if entities.needs_clarification then false
    else true

/-! ### Graph state and nodes (`src/graph/states.py`, `src/graph/nodes.py`) -/

/-- A conversation message as `(role, content)`. -/
abbrev Message := String × String

/-- Truncated computed-result payload handed to the answer collaborator
(`computed_result`); row payloads abstracted to counts. -/
structure ComputedResult where
  rows : Nat
  total_rows : Nat
  truncated : Bool
  task_type : String
deriving Repr

/-- `GraphStateDict`: the turn state.  Python's `None` and `""` are conflated
for the string fields, which the source only ever tests for truthiness. -/
structure GraphState where
  user_query : String := ""
  intent : String := ""
  entities : Entities := {}
  entities_preextracted : Bool := false
  task_type : String := ""
  python_code : String := ""
  data_profile : DataProfile := {}
  retrieved_rows : Nat := 0
  computed_result : Option ComputedResult := none
  messages : List Message := []
  needs_clarification : Bool := false
  clarification_question : String := ""
  error_type : String := ""
  final_answer : String := ""
  routing_action : String := ""

/-- `build_initial_state_dict`: fresh state for one turn; an empty carried
message list defaults to the single user message. -/
def buildInitialState (userQuery : String) (messages : List Message)
    (profile : DataProfile) : GraphState :=
  { user_query := userQuery,
    messages := if messages = [] then [("user", userQuery)] else messages,
    data_profile := profile }

/-- `CodegenPlanSchema`. -/
structure CodegenPlan where
  task_type : String := ""
  python_code : String := ""
  needs_clarification : Bool := false
  clarification_prompt : String := ""
deriving Repr

/-- Outcomes of the external collaborators for one turn (each is invoked at
most once per turn); `.error` is a raised exception at the call site. -/
structure Collaborators where
  classify : Except Unit (IntentDecision × Entities) := .error ()
  profileAnswer : Except Unit String := .error ()
  codegen : Except Unit CodegenPlan := .error ()
  execRun : Except String ExecRes := .error ""
  resultAnswer : Except Unit String := .error ()

/-- `fallback_for_error_type` (`src/services/response_service.py`).  The
month-token formatter applied by the source rewrites only `\dddd-Mdd` tokens;
none of the four fixed messages contains one, so it is the identity here. -/
def fallbackForErrorType (errorType : String) : String :=
  if errorType = "not_present" then MSG_NOT_PRESENT
  else if errorType = "out_of_scope" then MSG_OUT_OF_SCOPE
  else if errorType = "adversarial" then MSG_CANNOT_PROCEED
  else if errorType = "gibberish" then MSG_GIBBERISH
  else MSG_NOT_PRESENT

/-- `fallback` intent → error-category table in `guard_router_agent`. -/
def errorTypeMap (intent : String) : String :=
  if intent = "adversarial" then "adversarial"
  else if intent = "gibberish" then "gibberish"
  else if intent = "general_knowledge" then "out_of_scope"
  else "not_present"

/-- Idempotent append of the user message to history. -/
def appendUserMessage (messages : List Message) (userQuery : String) :
    List Message :=
  match messages.getLast? with
  | some (role, content) =>
    if role = "user" && pyStrip content = userQuery then messages
    else messages ++ [("user", userQuery)]
  | none => messages ++ [("user", userQuery)]

/-- `guard_router_agent`: guard checks, combined intent+entity classification
(via the `classify` collaborator outcome), post-processing of the decision,
and the fallback/clarify bookkeeping.  The entities payload is a full schema
dump, hence always a non-empty dict in the source's truthiness tests. -/
def guardRouterAgent (co : Collaborators) (s0 : GraphState) : GraphState :=
  let userQuery := pyStrip s0.user_query
  let s :=
    if userQuery ≠ "" then
      { s0 with messages := appendUserMessage s0.messages userQuery }
    else s0
  if detectMultipleQuestions userQuery then
    { s with
        final_answer := MSG_MULTIPLE_QUESTION, error_type := "not_present",
        routing_action := "finalize" }
  else
    let decision0 := routeQuery userQuery
    let ds : IntentDecision × GraphState :=
      if decision0.action = "continue" then
        match co.classify with
        | .error _ =>
          ({ intent := "ambiguous", action := "clarify", fallback_message := "",
             clarification_prompt :=
               "Please rephrase your request with the target and time scope.",
             reason := "combined intent+extraction failed" }, s)
        | .ok (llmDecision, llmEntities) =>
          if llmDecision.action = "continue" then
            let d :=
              if llmDecision.intent = INTENT_DEFINITIONS
                  && !definitionsIntentIsEligible llmEntities then
                { llmDecision with intent := INTENT_DATASET_KNOWLEDGE }
              else llmDecision
            (d, { s with entities := llmEntities, entities_preextracted := true })
          else if llmDecision.action = "clarify"
              && llmDecision.intent = INTENT_DATASET_KNOWLEDGE then
            if llmEntities.property_name ≠ [] || llmEntities.tenant_name ≠ []
                || llmEntities.entity_name ≠ [] || llmEntities.ledger_code ≠ [] then
              ({ llmDecision with action := "continue" },
               { s with entities := llmEntities, entities_preextracted := true })
            else (llmDecision, s)
          else (llmDecision, s)
      else (decision0, s)
    let decision := ds.1
    let s := { ds.2 with intent := decision.intent, routing_action := decision.action }
    if decision.action = "fallback" then
      { s with
          error_type := errorTypeMap decision.intent,
          final_answer := decision.fallback_message }
    else if decision.action = "clarify" then
      { s with
          needs_clarification := true,
          clarification_question :=
            if pyStrip decision.clarification_prompt ≠ "" then
              pyStrip decision.clarification_prompt
            else "Please clarify your question." }
    else s

/-- `entity_extractor_agent` (deterministic; `now` replaces `datetime.now()`):
consume pre-extracted entities, normalize the time scope, resolve raw ledger
mentions and requested values, enforce metric eligibility, and propagate an
entity-level clarification request. -/
def entityExtractorAgent (now : Int × Nat) (s : GraphState) : GraphState :=
  if s.entities_preextracted then
    let s := { s with entities_preextracted := false }
    let p := s.data_profile
    let e1 := resolveRelativeTimeScope now s.entities
    let eu := resolveLedgerRawMentions e1 p.uniqueValues
    let em := missingRequestedValues eu.1 p
    let s := { s with entities := em.1 }
    let missingAll :=
      em.2 ++ (if eu.2 ≠ [] then [("ledger_raw_mentions", eu.2)] else [])
    if missingAll ≠ [] then
      { s with error_type := "not_present", final_answer := MSG_NOT_PRESENT }
    else if !isSupportedMetricRequest em.1 p then
      { s with error_type := "not_present", final_answer := MSG_NOT_PRESENT }
    else if em.1.needs_clarification then
      { s with
          needs_clarification := true,
          clarification_question := em.1.clarification_prompt }
    else s
  else
    { s with
        needs_clarification := true,
        clarification_question :=
          "Please rephrase your request with the target and time scope." }

/-- `query_agent`: definitions intent delegates to the profile answerer; other
intents delegate to the codegen collaborator, routing empty or
clarification-flagged plans to clarification. -/
def queryAgent (co : Collaborators) (s : GraphState) : GraphState :=
  if s.final_answer ≠ "" then s
  else if s.needs_clarification then s
  else if s.intent = INTENT_DEFINITIONS then
    match co.profileAnswer with
    | .ok answerText => { s with final_answer := answerText }
    | .error _ =>
      { s with
          needs_clarification := true,
          clarification_question :=
            "Please clarify what information you want me to extract." }
  else
    match co.codegen with
    | .error _ =>
      { s with
          needs_clarification := true,
          clarification_question :=
            "Please clarify what information you want me to extract." }
    | .ok generated =>
      if generated.needs_clarification then
        { s with
            needs_clarification := true,
            clarification_question := generated.clarification_prompt }
      else
        let pythonCode := pyStrip generated.python_code
        if pythonCode = "" then
          { s with
              needs_clarification := true,
              clarification_question :=
                "Please clarify what information you want me to extract." }
        else
          { s with task_type := generated.task_type, python_code := pythonCode }

/-- `executor_response_agent`: run the gated code via the execution
collaborator, distinguish empty filtered frames from missing results, bound
the payload to 500 records, and delegate the final answer to the result
answerer; every failure degrades to the not-present category. -/
def executorResponseAgent (co : Collaborators) (s : GraphState) : GraphState :=
  if s.needs_clarification then s
  else if s.final_answer ≠ "" then s
  else
    let pythonCode := pyStrip s.python_code
    if pythonCode = "" then
      { s with
          error_type := "not_present",
          final_answer := fallbackForErrorType "not_present" }
    else
      match executeGeneratedPythonCode co.execRun pythonCode with
      | .error _ =>
        { s with error_type := "not_present", final_answer := MSG_NOT_PRESENT }
      | .ok execution =>
        if execution.filtered_row_count = some 0 then
          { s with
              error_type := "not_present",
              final_answer :=
                (timeRangeNotPresentAnswer s.entities s.data_profile).getD
                  MSG_NOT_PRESENT }
        else
          match execution.result_df with
          | none =>
            { s with error_type := "not_present", final_answer := MSG_NOT_PRESENT }
          | some records =>
            let s := { s with retrieved_rows := records }
            let s :=
              { s with
                  computed_result := some
                    { rows := min records 500, total_rows := records,
                      truncated := decide (records > 500),
                      task_type := s.task_type } }
            match co.resultAnswer with
            | .ok answerText => { s with final_answer := answerText }
            | .error _ =>
              { s with error_type := "not_present", final_answer := MSG_NOT_PRESENT }

/-- `clarification_node`. -/
def clarificationNode (s : GraphState) : GraphState :=
  if s.needs_clarification && s.clarification_question ≠ "" then
    { s with final_answer := s.clarification_question }
  else s

/-- `finalize_node`. -/
def finalizeNode (s : GraphState) : GraphState :=
  let s :=
    if s.final_answer = "" && s.error_type ≠ "" then
      { s with final_answer := fallbackForErrorType s.error_type }
    else s
  if s.final_answer ≠ "" then
    { s with messages := s.messages ++ [("assistant", s.final_answer)] }
  else s

/-! ### Flow wiring (`src/graph/flow.py`) -/

/-- `_shared_route_decision`: finalize > clarify > continue. -/
def sharedRouteDecision (s : GraphState) : String :=
  if s.final_answer ≠ "" then "finalize"
  else if s.needs_clarification then "clarify"
  else "continue"

/-- `_route_after_guard`. -/
def routeAfterGuard (s : GraphState) : String :=
  let decision := sharedRouteDecision s
  if decision = "continue" then "extract" else decision

/-- `_route_after_extractor`. -/
def routeAfterExtractor (s : GraphState) : String :=
  let decision := sharedRouteDecision s
  if decision = "continue" then "query" else decision

/-- `_route_after_query_agent`. -/
def routeAfterQueryAgent (s : GraphState) : String :=
  let decision := sharedRouteDecision s
  if decision = "continue" then "executor" else decision

/-- `build_graph` + one invocation: run a full turn through the compiled
graph's edges.  `clarify` and `executor` edges continue into `finalize_node`,
which always runs last, exactly once. -/
def runTurn (co : Collaborators) (now : Int × Nat) (s0 : GraphState) :
    GraphState :=
  let s1 := guardRouterAgent co s0
  if routeAfterGuard s1 = "finalize" then finalizeNode s1
  else if routeAfterGuard s1 = "clarify" then finalizeNode (clarificationNode s1)
  else
    let s2 := entityExtractorAgent now s1
    if routeAfterExtractor s2 = "finalize" then finalizeNode s2
    else if routeAfterExtractor s2 = "clarify" then
      finalizeNode (clarificationNode s2)
    else
      let s3 := queryAgent co s2
      if routeAfterQueryAgent s3 = "finalize" then finalizeNode s3
      else if routeAfterQueryAgent s3 = "clarify" then
        finalizeNode (clarificationNode s3)
      else finalizeNode (executorResponseAgent co s3)

/-! ### Helper lemmas -/

theorem isPySpace_cases (c : Char) (h : isPySpace c = true) :
    c = ' ' ∨ c = '\t' ∨ c = '\n' ∨ c = '\r' ∨ c = '\x0b' ∨ c = '\x0c' := by
  simp only [isPySpace, Bool.or_eq_true, decide_eq_true_eq] at h
  tauto

theorem isAlpha_not_space (c : Char) (h : c.isAlpha = true) :
    isPySpace c = false := by
  cases hs : isPySpace c
  · rfl
  · rcases isPySpace_cases c hs with h' | h' | h' | h' | h' | h' <;>
      subst h' <;> simp_all

theorem isDigit_not_space (c : Char) (h : c.isDigit = true) :
    isPySpace c = false := by
  cases hs : isPySpace c
  · rfl
  · rcases isPySpace_cases c hs with h' | h' | h' | h' | h' | h' <;>
      subst h' <;> simp_all

theorem countRunsAux_pos (p : Char → Bool) :
    ∀ (b : Bool) (l : List Char), countRunsAux p b l ≠ 0 →
      ∃ c ∈ l, p c = true := by
  intro b l
  induction l generalizing b with
  | nil => intro h; simp [countRunsAux] at h
  | cons c cs ih =>
    intro h
    by_cases hc : p c = true
    · exact ⟨c, List.mem_cons_self _ _, hc⟩
    · rw [Bool.not_eq_true] at hc
      simp [countRunsAux, hc] at h
      obtain ⟨d, hd, hpd⟩ := ih false h
      exact ⟨d, List.mem_cons_of_mem _ hd, hpd⟩

/-- C1: the routing decision after the Guard, Extract and Query stages is the
same three-way rule everywhere: a non-empty `final_answer` routes to
Finalize, otherwise `needs_clarification` routes to Clarify, otherwise the
pipeline continues to the next stage in sequence. -/
theorem shared_route_priority (s : GraphState) :
    sharedRouteDecision s =
      (if s.final_answer ≠ "" then "finalize"
       else if s.needs_clarification then "clarify" else "continue") ∧
    routeAfterGuard s =
      (if s.final_answer ≠ "" then "finalize"
       else if s.needs_clarification then "clarify" else "extract") ∧
    routeAfterExtractor s =
      (if s.final_answer ≠ "" then "finalize"
       else if s.needs_clarification then "clarify" else "query") ∧
    routeAfterQueryAgent s =
      (if s.final_answer ≠ "" then "finalize"
       else if s.needs_clarification then "clarify" else "executor") := by
  unfold routeAfterGuard routeAfterExtractor routeAfterQueryAgent
    sharedRouteDecision
  by_cases h1 : s.final_answer = "" <;> by_cases h2 : s.needs_clarification <;>
    simp [h1, h2]

/-- C8: `detectGibberish` returns true iff the trimmed text is empty, or it
has no alphabetic run and no digit, or the alphanumeric/non-whitespace ratio
is strictly below 0.30 with at most one alphabetic run; in particular it is
true on `""` and `"!!!@@@###"` and false on a normal question. -/
theorem detect_gibberish_characterization :
    (∀ text : String,
      detectGibberish text = true ↔
        (pyStrip text = "" ∨
          (countRuns Char.isAlpha (pyStrip text).data = 0 ∧
            ¬ (pyStrip text).data.any Char.isDigit = true) ∨
          (10 * (((pyStrip text).data.filter (fun c => !isPySpace c)).filter
                Char.isAlphanum).length <
              3 * ((pyStrip text).data.filter (fun c => !isPySpace c)).length ∧
            countRuns Char.isAlpha (pyStrip text).data ≤ 1))) ∧
    detectGibberish "" = true ∧
    detectGibberish "Which building has the most tenants?" = false ∧
    detectGibberish "!!!@@@###" = true := by
  refine ⟨?_, by decide, by decide, by decide⟩
  intro text
  unfold detectGibberish
  by_cases h0 : pyStrip text = ""
  · simp [h0]
  · rw [if_neg h0]
    by_cases hb : (countRuns Char.isAlpha (pyStrip text).data == 0
        && !(pyStrip text).data.any Char.isDigit) = true
    · rw [if_pos hb]
      simp only [Bool.and_eq_true, beq_iff_eq, Bool.not_eq_true'] at hb
      simp [h0, hb.1, hb.2]
    · rw [if_neg hb]
      have hex : ∃ c ∈ (pyStrip text).data, isPySpace c = false := by
        simp only [Bool.and_eq_true, beq_iff_eq, Bool.not_eq_true',
          not_and_or] at hb
        rcases hb with hb | hb
        · obtain ⟨c, hc, hpc⟩ := countRunsAux_pos Char.isAlpha false _ hb
          exact ⟨c, hc, isAlpha_not_space c hpc⟩
        · rw [Bool.not_eq_false, List.any_eq_true] at hb
          obtain ⟨c, hc, hpc⟩ := hb
          exact ⟨c, hc, isDigit_not_space c hpc⟩
      have hns : (pyStrip text).data.filter (fun c => !isPySpace c) ≠ [] := by
        obtain ⟨c, hc, hpc⟩ := hex
        intro hnil
        have : c ∈ (pyStrip text).data.filter (fun c => !isPySpace c) := by
          rw [List.mem_filter]
          exact ⟨hc, by simp [hpc]⟩
        rw [hnil] at this
        exact (List.not_mem_nil c) this
      rw [if_pos hns]
      by_cases hr : (10 * (((pyStrip text).data.filter (fun c => !isPySpace c)).filter
            Char.isAlphanum).length <
          3 * ((pyStrip text).data.filter (fun c => !isPySpace c)).length
          && countRuns Char.isAlpha (pyStrip text).data ≤ 1) = true
      · rw [if_pos hr]
        simp only [Bool.and_eq_true, decide_eq_true_eq] at hr
        simp only [true_iff]
        exact Or.inr (Or.inr hr)
      · rw [if_neg hr]
        simp only [Bool.and_eq_true, beq_iff_eq, Bool.not_eq_true',
          not_and_or, decide_eq_true_eq] at hb hr
        constructor
        · intro hfalse; exact absurd hfalse (by simp)
        · intro hspec
          rcases hspec with h | ⟨h1, h2⟩ | ⟨h1, h2⟩
          · exact absurd h h0
          · rcases hb with hb | hb
            · exact absurd h1 hb
            · rw [Bool.not_eq_false] at hb
              exact absurd hb h2
          · rcases hr with hr | hr
            · exact absurd h1 hr
            · exact absurd h2 hr

theorem digitChar_not_space (n : Nat) : isPySpace (Nat.digitChar n) = false := by
  unfold Nat.digitChar
  simp only [apply_ite isPySpace]
  simp [isPySpace]

theorem toDigitsCore_not_space (b : Nat) :
    ∀ (f n : Nat) (acc : List Char),
      (∀ c ∈ acc, isPySpace c = false) →
      ∀ c ∈ Nat.toDigitsCore b f n acc, isPySpace c = false := by
  intro f
  induction f with
  | zero => intro n acc h; simpa [Nat.toDigitsCore] using h
  | succ f ih =>
    intro n acc h c hc
    simp only [Nat.toDigitsCore] at hc
    have hacc : ∀ d ∈ (Nat.digitChar (n % b) :: acc), isPySpace d = false := by
      intro d hd
      rcases List.mem_cons.mp hd with rfl | hd
      · exact digitChar_not_space _
      · exact h d hd
    by_cases hn : n / b = 0
    · rw [if_pos hn] at hc
      exact hacc c hc
    · rw [if_neg hn] at hc
      exact ih _ _ hacc c hc

theorem toDigitsCore_ne_nil (b : Nat) :
    ∀ (f n : Nat) (acc : List Char), 0 < f →
      Nat.toDigitsCore b f n acc ≠ [] := by
  intro f
  induction f with
  | zero => intro n acc h; exact absurd h (by omega)
  | succ f ih =>
    intro n acc _
    simp only [Nat.toDigitsCore]
    by_cases hn : n / b = 0
    · rw [if_pos hn]; simp
    · rw [if_neg hn]
      cases f with
      | zero => simp [Nat.toDigitsCore]
      | succ f2 => exact ih _ _ (Nat.succ_pos f2)

theorem natRepr_not_space (n : Nat) :
    (Nat.repr n).data ≠ [] ∧ ∀ c ∈ (Nat.repr n).data, isPySpace c = false := by
  have h1 : (Nat.repr n).data = Nat.toDigitsCore 10 (n + 1) n [] := rfl
  rw [h1]
  exact ⟨toDigitsCore_ne_nil 10 (n + 1) n [] (Nat.succ_pos n),
    toDigitsCore_not_space 10 (n + 1) n [] (by simp)⟩

theorem intToString_not_space (y : Int) :
    (toString y).data ≠ [] ∧ ∀ c ∈ (toString y).data, isPySpace c = false := by
  have hy : toString y = Int.repr y := rfl
  rw [hy]
  cases y with
  | ofNat n =>
    have h : Int.repr (Int.ofNat n) = Nat.repr n := rfl
    rw [h]
    exact natRepr_not_space n
  | negSucc n =>
    have h : Int.repr (Int.negSucc n) = "-" ++ Nat.repr (n + 1) := rfl
    rw [h]
    rw [String.data_append]
    constructor
    · simp
    · intro c hc
      rcases List.mem_append.mp hc with hc | hc
      · have : c = '-' := by simpa using hc
        subst this; decide
      · exact (natRepr_not_space (n + 1)).2 c hc

theorem dropWhile_eq_self_of_not_space (l : List Char)
    (h : ∀ c ∈ l, isPySpace c = false) : l.dropWhile isPySpace = l := by
  cases l with
  | nil => rfl
  | cons c cs => simp [List.dropWhile, h c (List.mem_cons_self _ _)]

theorem pyStrip_of_not_space (s : String)
    (h : ∀ c ∈ s.data, isPySpace c = false) : pyStrip s = s := by
  unfold pyStrip
  rw [dropWhile_eq_self_of_not_space _ h]
  rw [dropWhile_eq_self_of_not_space _ (by
    intro c hc
    exact h c (by simpa using hc))]
  rw [List.reverse_reverse]

theorem string_ne_empty_of_data_ne_nil (s : String) (h : s.data ≠ []) :
    s ≠ "" := by
  intro heq; rw [heq] at h; exact h rfl

/-- C6: relative-period resolution follows the stated arithmetic: the quarter
index is `((month-1)//3)+1` with `last_quarter` wrapping index 0 to 4 (year
decremented) and `next_quarter` wrapping index 5 to 1 (year incremented);
`last_month` wraps month 0 to 12 (year decremented) and `next_month` wraps 13
to 1 (year incremented); months are rendered `YYYY-Mnn` zero-padded.  In
particular `last_quarter` in a Q1 month gives Q4 of the previous year and
`next_quarter` in a Q4 month gives Q1 of the next year. -/
theorem relative_period_arithmetic (y : Int) (m : Nat) (ts : TimeScope)
    (h1 : 1 ≤ m) (h2 : m ≤ 12) :
    (pyLower (pyStrip (ts.relative_period.getD "")) = "last_quarter" →
      (applyRelativePeriod (y, m) ts).quarter =
        some (if (m - 1) / 3 + 1 = 1 then quarterToken (y - 1) 4
              else quarterToken y ((m - 1) / 3 + 1 - 1)) ∧
      (applyRelativePeriod (y, m) ts).mode = "exact") ∧
    (pyLower (pyStrip (ts.relative_period.getD "")) = "next_quarter" →
      (applyRelativePeriod (y, m) ts).quarter =
        some (if (m - 1) / 3 + 1 = 4 then quarterToken (y + 1) 1
              else quarterToken y ((m - 1) / 3 + 1 + 1)) ∧
      (applyRelativePeriod (y, m) ts).mode = "exact") ∧
    (pyLower (pyStrip (ts.relative_period.getD "")) = "last_month" →
      (applyRelativePeriod (y, m) ts).month =
        some (if m = 1 then monthToken (y - 1) 12 else monthToken y (m - 1)) ∧
      (applyRelativePeriod (y, m) ts).mode = "exact") ∧
    (pyLower (pyStrip (ts.relative_period.getD "")) = "next_month" →
      (applyRelativePeriod (y, m) ts).month =
        some (if m = 12 then monthToken (y + 1) 1 else monthToken y (m + 1)) ∧
      (applyRelativePeriod (y, m) ts).mode = "exact") ∧
    (m ≤ 3 → pyLower (pyStrip (ts.relative_period.getD "")) = "last_quarter" →
      (applyRelativePeriod (y, m) ts).quarter = some (quarterToken (y - 1) 4)) ∧
    (10 ≤ m → pyLower (pyStrip (ts.relative_period.getD "")) = "next_quarter" →
      (applyRelativePeriod (y, m) ts).quarter = some (quarterToken (y + 1) 1)) ∧
    monthToken 2025 5 = "2025-M05" ∧ quarterToken 2024 4 = "2024-Q4" := by
  have hq1 : ∀ rel : String, rel = "last_quarter" →
      pyLower (pyStrip ((ts.relative_period.getD ""))) = rel →
      (applyRelativePeriod (y, m) ts).quarter =
        some (if (m - 1) / 3 + 1 = 1 then quarterToken (y - 1) 4
              else quarterToken y ((m - 1) / 3 + 1 - 1)) ∧
      (applyRelativePeriod (y, m) ts).mode = "exact" := by
    intro rel hrel h
    subst hrel
    unfold applyRelativePeriod
    rw [h]
    by_cases hqi : (m - 1) / 3 + 1 - 1 = 0
    · have hqi1 : (m - 1) / 3 + 1 = 1 := by omega
      simp [hqi, hqi1]
    · have hqi1 : ¬ (m - 1) / 3 + 1 = 1 := by omega
      have hqi2 : ¬ (m - 1) / 3 = 0 := by omega
      simp [hqi, hqi1, hqi2]
  have hq2 : pyLower (pyStrip ((ts.relative_period.getD ""))) = "next_quarter" →
      (applyRelativePeriod (y, m) ts).quarter =
        some (if (m - 1) / 3 + 1 = 4 then quarterToken (y + 1) 1
              else quarterToken y ((m - 1) / 3 + 1 + 1)) ∧
      (applyRelativePeriod (y, m) ts).mode = "exact" := by
    intro h
    unfold applyRelativePeriod
    rw [h]
    by_cases hqi : (m - 1) / 3 + 1 + 1 = 5
    · have hqi1 : (m - 1) / 3 + 1 = 4 := by omega
      simp [hqi, hqi1]
    · have hqi1 : ¬ (m - 1) / 3 + 1 = 4 := by omega
      have hqi2 : ¬ (m - 1) / 3 + 2 = 5 := by omega
      simp [hqi, hqi1, hqi2]
  have hm1 : pyLower (pyStrip ((ts.relative_period.getD ""))) = "last_month" →
      (applyRelativePeriod (y, m) ts).month =
        some (if m = 1 then monthToken (y - 1) 12 else monthToken y (m - 1)) ∧
      (applyRelativePeriod (y, m) ts).mode = "exact" := by
    intro h
    unfold applyRelativePeriod
    rw [h]
    by_cases hm : m - 1 = 0
    · have hm' : m = 1 := by omega
      simp [hm, hm']
    · have hm' : ¬ m = 1 := by omega
      simp [hm, hm']
  have hm2 : pyLower (pyStrip ((ts.relative_period.getD ""))) = "next_month" →
      (applyRelativePeriod (y, m) ts).month =
        some (if m = 12 then monthToken (y + 1) 1 else monthToken y (m + 1)) ∧
      (applyRelativePeriod (y, m) ts).mode = "exact" := by
    intro h
    unfold applyRelativePeriod
    rw [h]
    by_cases hm : m + 1 = 13
    · have hm' : m = 12 := by omega
      simp [hm, hm']
    · have hm' : ¬ m = 12 := by omega
      simp [hm, hm']
  refine ⟨hq1 _ rfl, hq2, hm1, hm2, ?_, ?_, by decide, by decide⟩
  · intro hm3 h
    have := (hq1 _ rfl h).1
    have hqi : (m - 1) / 3 + 1 = 1 := by omega
    rw [this, if_pos hqi]
  · intro hm10 h
    have := (hq2 h).1
    have hqi : (m - 1) / 3 + 1 = 4 := by omega
    rw [this, if_pos hqi]

/-- Witness: `last_quarter` evaluated in February 2025 yields 2024-Q4. -/
theorem relative_period_arithmetic_witness :
    1 ≤ 2 ∧ 2 ≤ 12 ∧
    (applyRelativePeriod ((2025 : Int), 2)
        { relative_period := some "last_quarter" }).quarter =
      some (quarterToken 2024 4) := by
  have h := relative_period_arithmetic 2025 2
    { relative_period := some "last_quarter" } (by decide) (by decide)
  refine ⟨by decide, by decide, ?_⟩
  rw [(h.1 (by decide)).1]
  decide

theorem pad2_not_space (n : Nat) :
    (pad2 n).data ≠ [] ∧ ∀ c ∈ (pad2 n).data, isPySpace c = false := by
  unfold pad2
  have hn := natRepr_not_space n
  split
  · rw [String.data_append]
    constructor
    · simp
    · intro c hc
      rcases List.mem_append.mp hc with hc | hc
      · have : c = '0' := by simpa using hc
        subst this; decide
      · exact hn.2 c hc
  · exact hn

theorem quarterToken_not_space (y : Int) (qi : Nat) :
    (quarterToken y qi).data ≠ [] ∧
      ∀ c ∈ (quarterToken y qi).data, isPySpace c = false := by
  have hd : (quarterToken y qi).data =
      (toString y).data ++ ('-' :: 'Q' :: (toString qi).data) := by
    have h1 : quarterToken y qi =
        toString "" ++ toString y ++ toString "-Q" ++ toString qi ++ toString "" := rfl
    rw [h1, String.data_append, String.data_append, String.data_append,
      String.data_append]
    have e1 : (toString "").data = ([] : List Char) := rfl
    have e2 : (toString "-Q").data = ['-', 'Q'] := rfl
    rw [e1, e2]
    simp
  rw [hd]
  have hy := intToString_not_space y
  have hq := natRepr_not_space qi
  constructor
  · simp
  · intro c hc
    rcases List.mem_append.mp hc with hc | hc
    · exact hy.2 c hc
    · rcases List.mem_cons.mp hc with rfl | hc
      · decide
      · rcases List.mem_cons.mp hc with rfl | hc
        · decide
        · exact hq.2 c hc

theorem monthToken_not_space (y : Int) (m : Nat) :
    (monthToken y m).data ≠ [] ∧
      ∀ c ∈ (monthToken y m).data, isPySpace c = false := by
  have hd : (monthToken y m).data =
      (toString y).data ++ ('-' :: 'M' :: (pad2 m).data) := by
    have h1 : monthToken y m =
        (toString "" ++ toString y ++ toString "-M") ++ pad2 m := rfl
    rw [h1, String.data_append, String.data_append, String.data_append]
    have e1 : (toString "").data = ([] : List Char) := rfl
    have e2 : (toString "-M").data = ['-', 'M'] := rfl
    rw [e1, e2]
    simp
  rw [hd]
  have hy := intToString_not_space y
  have hm := pad2_not_space m
  constructor
  · simp
  · intro c hc
    rcases List.mem_append.mp hc with hc | hc
    · exact hy.2 c hc
    · rcases List.mem_cons.mp hc with rfl | hc
      · decide
      · rcases List.mem_cons.mp hc with rfl | hc
        · decide
        · exact hm.2 c hc

theorem pyStrip_ne_empty_of_not_space (s : String) (hne : s.data ≠ [])
    (h : ∀ c ∈ s.data, isPySpace c = false) : pyStrip s ≠ "" := by
  rw [pyStrip_of_not_space s h]
  exact string_ne_empty_of_data_ne_nil s hne

theorem resolveRelativeTimeScope_time_scope (now : Int × Nat) (e : Entities) :
    (resolveRelativeTimeScope now e).time_scope =
      canonicalizeTimeScope (applyRelativePeriod now e.time_scope) := by
  unfold resolveRelativeTimeScope
  by_cases h :
      (canonicalizeTimeScope (applyRelativePeriod now e.time_scope)).mode =
        "exact" <;>
    simp [h]

theorem applyRelativePeriod_unrecognized (now : Int × Nat) (ts : TimeScope)
    (h : ¬ pyLower (pyStrip (ts.relative_period.getD "")) ∈
        recognizedRelativePeriods) :
    applyRelativePeriod now ts = ts := by
  simp only [recognizedRelativePeriods, List.mem_cons, List.not_mem_nil,
    or_false, not_or] at h
  obtain ⟨h1, h2, h3, h4, h5, h6, h7, h8, h9⟩ := h
  unfold applyRelativePeriod
  by_cases h0 : pyLower (pyStrip (ts.relative_period.getD "")) = ""
  · rw [if_pos h0]
  · rw [if_neg h0]
    simp [h1, h2, h3, h4, h5, h6, h7, h8, h9]

theorem canonicalize_exact_shape (ts : TimeScope)
    (h : (canonicalizeTimeScope ts).mode = "exact") :
    ∃ v, v ≠ "" ∧
      (((canonicalizeTimeScope ts).month = some v ∧
          (canonicalizeTimeScope ts).quarter = none ∧
          (canonicalizeTimeScope ts).year = none) ∨
        ((canonicalizeTimeScope ts).month = none ∧
          (canonicalizeTimeScope ts).quarter = some v ∧
          (canonicalizeTimeScope ts).year = none) ∨
        ((canonicalizeTimeScope ts).month = none ∧
          (canonicalizeTimeScope ts).quarter = none ∧
          (canonicalizeTimeScope ts).year = some v)) := by
  unfold canonicalizeTimeScope at h ⊢
  by_cases hm : pyStrip (ts.month.getD "") = ""
  · by_cases hq : pyStrip (ts.quarter.getD "") = ""
    · by_cases hy : pyStrip (ts.year.getD "") = ""
      · exfalso
        simp only [hm, hq, hy] at h
        by_cases hmode : ts.mode = "exact"
        · simp [hmode] at h
        · simp [hmode] at h
      · refine ⟨pyStrip (ts.year.getD ""), hy, ?_⟩
        simp [hm, hq, hy]
    · refine ⟨pyStrip (ts.quarter.getD ""), hq, ?_⟩
      simp [hm, hq]
  · refine ⟨pyStrip (ts.month.getD ""), hm, ?_⟩
    simp [hm]

theorem applyRelativePeriod_recognized_mode (now : Int × Nat) (ts : TimeScope)
    (h : pyLower (pyStrip (ts.relative_period.getD "")) ∈
        recognizedRelativePeriods) :
    (canonicalizeTimeScope (applyRelativePeriod now ts)).mode = "exact" := by
  have hyear : ∀ z : Int, pyStrip (toString z) ≠ "" := fun z =>
    pyStrip_ne_empty_of_not_space _ (intToString_not_space z).1
      (intToString_not_space z).2
  have hqtok : ∀ (z : Int) (qi : Nat), pyStrip (quarterToken z qi) ≠ "" :=
    fun z qi =>
      pyStrip_ne_empty_of_not_space _ (quarterToken_not_space z qi).1
        (quarterToken_not_space z qi).2
  have hmtok : ∀ (z : Int) (mo : Nat), pyStrip (monthToken z mo) ≠ "" :=
    fun z mo =>
      pyStrip_ne_empty_of_not_space _ (monthToken_not_space z mo).1
        (monthToken_not_space z mo).2
  simp only [recognizedRelativePeriods, List.mem_cons, List.not_mem_nil,
    or_false] at h
  unfold applyRelativePeriod
  have hps : pyStrip "" = "" := rfl
  rcases h with h | h | h | h | h | h | h | h | h <;>
    rw [h] <;> simp <;> unfold canonicalizeTimeScope <;>
    simp [hyear, hqtok, hmtok, hps]

/-- C5 (amended): after time-scope normalization, an `exact` mode carries
exactly one non-empty field of month/quarter/year (others cleared); any
non-empty field (after relative resolution) forces mode `exact` with priority
month > quarter > year; with all fields empty, an input mode `exact`
downgrades to `none`, but any other input mode — including `relative` with an
unrecognized or missing relative period — survives unchanged, so the final
mode is not always in {none, exact}. -/
theorem time_scope_canonicalization (now : Int × Nat) (e : Entities) :
    ((resolveRelativeTimeScope now e).time_scope.mode = "exact" →
      ∃ v, v ≠ "" ∧
        (((resolveRelativeTimeScope now e).time_scope.month = some v ∧
            (resolveRelativeTimeScope now e).time_scope.quarter = none ∧
            (resolveRelativeTimeScope now e).time_scope.year = none) ∨
          ((resolveRelativeTimeScope now e).time_scope.month = none ∧
            (resolveRelativeTimeScope now e).time_scope.quarter = some v ∧
            (resolveRelativeTimeScope now e).time_scope.year = none) ∨
          ((resolveRelativeTimeScope now e).time_scope.month = none ∧
            (resolveRelativeTimeScope now e).time_scope.quarter = none ∧
            (resolveRelativeTimeScope now e).time_scope.year = some v))) ∧
    (pyLower (pyStrip (e.time_scope.relative_period.getD "")) ∈
        recognizedRelativePeriods →
      (resolveRelativeTimeScope now e).time_scope.mode = "exact") ∧
    (¬ pyLower (pyStrip (e.time_scope.relative_period.getD "")) ∈
        recognizedRelativePeriods →
      (pyStrip (e.time_scope.month.getD "") ≠ "" →
        (resolveRelativeTimeScope now e).time_scope.mode = "exact" ∧
        (resolveRelativeTimeScope now e).time_scope.month =
          some (pyStrip (e.time_scope.month.getD "")) ∧
        (resolveRelativeTimeScope now e).time_scope.quarter = none ∧
        (resolveRelativeTimeScope now e).time_scope.year = none) ∧
      (pyStrip (e.time_scope.month.getD "") = "" →
        pyStrip (e.time_scope.quarter.getD "") ≠ "" →
        (resolveRelativeTimeScope now e).time_scope.mode = "exact" ∧
        (resolveRelativeTimeScope now e).time_scope.month = none ∧
        (resolveRelativeTimeScope now e).time_scope.quarter =
          some (pyStrip (e.time_scope.quarter.getD "")) ∧
        (resolveRelativeTimeScope now e).time_scope.year = none) ∧
      (pyStrip (e.time_scope.month.getD "") = "" →
        pyStrip (e.time_scope.quarter.getD "") = "" →
        pyStrip (e.time_scope.year.getD "") ≠ "" →
        (resolveRelativeTimeScope now e).time_scope.mode = "exact" ∧
        (resolveRelativeTimeScope now e).time_scope.month = none ∧
        (resolveRelativeTimeScope now e).time_scope.quarter = none ∧
        (resolveRelativeTimeScope now e).time_scope.year =
          some (pyStrip (e.time_scope.year.getD ""))) ∧
      (pyStrip (e.time_scope.month.getD "") = "" →
        pyStrip (e.time_scope.quarter.getD "") = "" →
        pyStrip (e.time_scope.year.getD "") = "" →
        e.time_scope.mode = "exact" →
        (resolveRelativeTimeScope now e).time_scope.mode = "none") ∧
      (pyStrip (e.time_scope.month.getD "") = "" →
        pyStrip (e.time_scope.quarter.getD "") = "" →
        pyStrip (e.time_scope.year.getD "") = "" →
        e.time_scope.mode ≠ "exact" →
        (resolveRelativeTimeScope now e).time_scope.mode =
          e.time_scope.mode)) := by
  rw [resolveRelativeTimeScope_time_scope]
  refine ⟨canonicalize_exact_shape _,
    applyRelativePeriod_recognized_mode now e.time_scope, ?_⟩
  intro hrel
  rw [applyRelativePeriod_unrecognized now e.time_scope hrel]
  refine ⟨?_, ?_, ?_, ?_, ?_⟩
  · intro hm
    unfold canonicalizeTimeScope
    simp [hm]
  · intro hm hq
    unfold canonicalizeTimeScope
    simp [hm, hq]
  · intro hm hq hy
    unfold canonicalizeTimeScope
    simp [hm, hq, hy]
  · intro hm hq hy hmode
    unfold canonicalizeTimeScope
    simp [hm, hq, hy, hmode]
  · intro hm hq hy hmode
    unfold canonicalizeTimeScope
    simp [hm, hq, hy, hmode]

/-- Counterexample to C5 as stated: a time scope whose mode is `relative`
with no recognized relative period and no concrete field keeps mode
`relative` after normalization, which is neither `none` nor `exact`. -/
theorem time_scope_mode_relative_counterexample :
    (resolveRelativeTimeScope (2025, 6)
        { time_scope := { mode := "relative" } }).time_scope.mode =
      "relative" ∧
    ("relative" : String) ≠ "none" ∧ ("relative" : String) ≠ "exact" := by
  refine ⟨by decide, by decide, by decide⟩

/-- Witness for the amended C5 theorem: a quarter-only scope becomes exact
with only the quarter surviving, and a `current_year` relative scope becomes
exact. -/
theorem time_scope_canonicalization_witness :
    ((resolveRelativeTimeScope (2025, 6)
        { time_scope := { mode := "none", quarter := some "2024-Q1" } }).time_scope.mode =
      "exact" ∧
      (resolveRelativeTimeScope (2025, 6)
        { time_scope := { mode := "none", quarter := some "2024-Q1" } }).time_scope.month =
      none ∧
      (resolveRelativeTimeScope (2025, 6)
        { time_scope := { mode := "none", quarter := some "2024-Q1" } }).time_scope.quarter =
      some (pyStrip ((some "2024-Q1" : Option String).getD "")) ∧
      (resolveRelativeTimeScope (2025, 6)
        { time_scope := { mode := "none", quarter := some "2024-Q1" } }).time_scope.year =
      none) ∧
    (resolveRelativeTimeScope (2025, 6)
        { time_scope :=
            { mode := "relative", relative_period := some "current_year" } }).time_scope.mode =
      "exact" := by
  constructor
  · exact ((time_scope_canonicalization (2025, 6)
      { time_scope := { mode := "none", quarter := some "2024-Q1" } }).2.2
        (by decide)).2.1 (by decide) (by decide)
  · exact (time_scope_canonicalization (2025, 6)
      { time_scope :=
          { mode := "relative", relative_period := some "current_year" } }).2.1
      (by decide)

theorem resolveRequestedValues_all_none (requested : List String)
    (allowedRaw : List (Option String)) (h : ∀ v ∈ allowedRaw, v = none) :
    resolveRequestedValues requested allowedRaw = (requested, []) := by
  unfold resolveRequestedValues
  have hnil : allowedRaw.filterMap id = [] := by
    rw [List.filterMap_eq_nil_iff]
    exact h
  rw [hnil]
  simp

theorem missingStep_missing (uv : String → List (Option String))
    (acc : Entities × List (String × List String)) (c : String) :
    (missingStep uv acc c).2 = acc.2 ∨
      ∃ vs, (missingStep uv acc c).2 = acc.2 ++ [(c, vs)] := by
  unfold missingStep
  by_cases h0 : acc.1.getCol c = []
  · left
    simp [h0]
  · simp only [h0, ite_false, if_neg]
    set ea :=
      (if (resolveRequestedValues (acc.1.getCol c) (uv c)).2 ≠ [] then
        (resolveRequestedValues (acc.1.getCol c) (uv c)).2.foldl
          (rescueStep uv c)
          (acc.1.setCol c (resolveRequestedValues (acc.1.getCol c) (uv c)).1, [])
      else
        (acc.1.setCol c (resolveRequestedValues (acc.1.getCol c) (uv c)).1,
          (resolveRequestedValues (acc.1.getCol c) (uv c)).2)) with hea
    by_cases h1 : ea.2 = []
    · left
      simp [h1]
    · simp only [h1, ite_false, if_neg]
      by_cases h2 : ea.2.filter isExplicitIdentifier = []
      · left
        simp [h2]
      · right
        exact ⟨ea.2.filter isExplicitIdentifier, by simp [h2]⟩

theorem missingStep_missing_of_all_none (uv : String → List (Option String))
    (acc : Entities × List (String × List String)) (c : String)
    (h : ∀ v ∈ uv c, v = none) :
    (missingStep uv acc c).2 = acc.2 := by
  unfold missingStep
  by_cases h0 : acc.1.getCol c = []
  · simp [h0]
  · simp [h0, resolveRequestedValues_all_none _ _ h]

theorem fold_missing_no_new_key (uv : String → List (Option String))
    (column : String) (h : ∀ v ∈ uv column, v = none) :
    ∀ (cols : List String) (acc : Entities × List (String × List String)),
      ¬ column ∈ acc.2.map Prod.fst →
      ¬ column ∈ (cols.foldl (missingStep uv) acc).2.map Prod.fst := by
  intro cols
  induction cols with
  | nil => intro acc hacc; simpa using hacc
  | cons c cols ih =>
    intro acc hacc
    rw [List.foldl_cons]
    apply ih
    by_cases hc : c = column
    · subst hc
      rw [missingStep_missing_of_all_none uv acc c h]
      exact hacc
    · rcases missingStep_missing uv acc c with heq | ⟨vs, heq⟩
      · rw [heq]; exact hacc
      · rw [heq]
        simp only [List.map_append, List.map_cons, List.map_nil,
          List.mem_append, List.mem_singleton, not_or]
        exact ⟨hacc, by simpa using fun hcc => hc hcc.symm⟩

/-- C10: when a column's recorded unique values are empty or all null, the
requested values pass through `_resolve_requested_values` unchanged as the
resolved list with no absences, so such a column never contributes a key to
the missing-value map. -/
theorem empty_known_values_passthrough :
    (∀ (requested : List String) (allowedRaw : List (Option String)),
      (∀ v ∈ allowedRaw, v = none) →
      resolveRequestedValues requested allowedRaw = (requested, [])) ∧
    (∀ (e : Entities) (p : DataProfile) (column : String),
      (∀ v ∈ p.uniqueValues column, v = none) →
      ¬ column ∈ (missingRequestedValues e p).2.map Prod.fst) := by
  refine ⟨resolveRequestedValues_all_none, ?_⟩
  intro e p column h
  unfold missingRequestedValues
  exact fold_missing_no_new_key p.uniqueValues column h _ _ (by simp)

/-- Witness for the C10 theorem: a column with only null recorded values
passes requests through and never blocks the turn. -/
theorem empty_known_values_passthrough_witness :
    ((∀ v ∈ [(none : Option String), none], v = none) ∧
      resolveRequestedValues ["Building 999"] [none, none] =
        (["Building 999"], [])) ∧
    ((∀ v ∈ ([] : List (Option String)), v = none) ∧
      ¬ "property_name" ∈
        (missingRequestedValues { property_name := ["Building 999"] }
          { uniqueValues := fun _ => [] }).2.map Prod.fst) := by
  constructor
  · exact ⟨by simp, empty_known_values_passthrough.1 _ _ (by simp)⟩
  · exact ⟨by simp, empty_known_values_passthrough.2 _ _ _ (by simp)⟩

theorem assocFind_assocAppend (k key v : String) :
    ∀ acc : List (String × List String),
      assocFind (assocAppend acc k v) key =
        if k = key then some (((assocFind acc key).getD []) ++ [v])
        else assocFind acc key := by
  intro acc
  induction acc with
  | nil =>
    simp only [assocAppend, assocFind]
    by_cases hk : k = key <;> simp [hk]
  | cons p rest ih =>
    obtain ⟨k', vs⟩ := p
    simp only [assocAppend]
    by_cases h1 : k' = k
    · subst h1
      simp only [if_pos rfl, assocFind]
      by_cases h2 : k' = key <;> simp [h2]
    · rw [if_neg h1]
      simp only [assocFind]
      by_cases h2 : k' = key
      · subst h2
        rw [if_pos rfl, if_pos rfl]
        rw [if_neg (fun hk => h1 hk.symm)]
      · rw [if_neg h2, if_neg h2]
        exact ih

theorem assocFind_build (key : String) (hkey : key ≠ "") :
    ∀ (l : List String) (acc : List (String × List String)),
      assocFind (l.foldl normAssocStep acc) key =
        (match assocFind acc key with
         | some vs => some (vs ++ l.filter (fun w => normalizeText w = key))
         | none =>
           if l.filter (fun w => normalizeText w = key) = [] then none
           else some (l.filter (fun w => normalizeText w = key))) := by
  intro l
  induction l with
  | nil =>
    intro acc
    cases h : assocFind acc key <;> simp [h]
  | cons w ws ih =>
    intro acc
    rw [List.foldl_cons, ih]
    by_cases hw : normalizeText w = key
    · have hwne : normalizeText w ≠ "" := by rw [hw]; exact hkey
      rw [show normAssocStep acc w = assocAppend acc (normalizeText w) w from by
        simp [normAssocStep, hwne]]
      rw [assocFind_assocAppend]
      rw [if_pos hw]
      cases h : assocFind acc key with
      | some vs => simp [h, hw]
      | none => simp [h, hw]
    · have hstep : assocFind (normAssocStep acc w) key = assocFind acc key := by
        unfold normAssocStep
        by_cases hwe : normalizeText w = ""
        · simp [hwe]
        · simp only [hwe, ite_false, if_neg]
          rw [assocFind_assocAppend]
          rw [if_neg hw]
      rw [hstep]
      cases h : assocFind acc key <;> simp [h, List.filter_cons, hw]

/-- C9 (amended): resolving a value that already appears in the known-values
list returns that same value unchanged with zero absences, provided its
normalized form is non-empty and no earlier known value shares that
normalized form (the resolver returns the first normalized-equal known value). -/
theorem requested_value_idempotent (v : String)
    (allowedRaw : List (Option String))
    (hn : normalizeText (pyStrip v) ≠ "")
    (hfirst : ((allowedRaw.filterMap id).filter
        (fun w => normalizeText w = normalizeText (pyStrip v))).head? =
      some v) :
    resolveRequestedValues [v] allowedRaw = ([v], []) := by
  obtain ⟨tl, hfl⟩ : ∃ tl, (allowedRaw.filterMap id).filter
      (fun w => normalizeText w = normalizeText (pyStrip v)) = v :: tl := by
    cases hf : (allowedRaw.filterMap id).filter
        (fun w => normalizeText w = normalizeText (pyStrip v)) with
    | nil => rw [hf] at hfirst; simp at hfirst
    | cons x xs =>
      rw [hf] at hfirst
      simp only [List.head?_cons, Option.some.injEq] at hfirst
      exact ⟨xs, by rw [hfirst]⟩
  have hne : allowedRaw.filterMap id ≠ [] := by
    intro h
    rw [h] at hfl
    simp at hfl
  have hvmem : v ∈ (allowedRaw.filterMap id).filter
      (fun w => normalizeText w = normalizeText (pyStrip v)) := by
    rw [hfl]; exact List.mem_cons_self _ _
  have hvkey : normalizeText v = normalizeText (pyStrip v) := by
    have := List.mem_filter.mp hvmem
    simpa using this.2
  have hfind : findBestMatches ((allowedRaw.filterMap id).foldl normAssocStep [])
      (pyStrip v) = v :: tl := by
    unfold findBestMatches
    rw [if_neg hn]
    rw [assocFind_build (normalizeText (pyStrip v)) hn (allowedRaw.filterMap id) []]
    simp only [assocFind]
    rw [hfl]
    simp
  have hstrip : pyStrip v ≠ "" := by
    intro h
    rw [h] at hn
    exact hn rfl
  unfold resolveRequestedValues
  rw [if_neg hne]
  simp only [List.foldl_cons, List.foldl_nil]
  rw [show resolveValueStep ((allowedRaw.filterMap id).foldl normAssocStep [])
      ([], []) v = ([v], []) from by
    unfold resolveValueStep
    rw [if_neg hstrip, hfind]
    simp]
  simp only [List.length_singleton]
  rw [if_neg (by omega)]
  simp only [List.foldl_cons, List.foldl_nil]
  rw [show dedupResolvedStep ([], []) v = ([normalizeText v], [v]) from by
    unfold dedupResolvedStep
    rw [if_pos (by simp [hvkey, hn])]
    simp]

/-- Counterexample to C9 as stated: `"Building-180"` appears in the known
values, but resolving it returns the earlier known value `"building 180"`
that shares its normalized form, not the value itself. -/
theorem requested_value_idempotence_counterexample :
    some "Building-180" ∈ [some "building 180", some "Building-180"] ∧
    resolveRequestedValues ["Building-180"]
        [some "building 180", some "Building-180"] =
      (["building 180"], []) ∧
    ("building 180" : String) ≠ "Building-180" :=
  ⟨by decide, by decide, by decide⟩

/-- Witness for the amended idempotence theorem on `"Building 180"`. -/
theorem requested_value_idempotent_witness :
    (normalizeText (pyStrip "Building 180") ≠ "" ∧
      (([some "Building 180", some "Building 160"].filterMap id).filter
        (fun w =>
          normalizeText w = normalizeText (pyStrip "Building 180"))).head? =
        some "Building 180") ∧
    resolveRequestedValues ["Building 180"]
        [some "Building 180", some "Building 160"] =
      (["Building 180"], []) :=
  ⟨⟨by decide, by decide⟩,
    requested_value_idempotent "Building 180"
      [some "Building 180", some "Building 160"] (by decide) (by decide)⟩

theorem getCol_setCol (e : Entities) (d : String) (l : List String)
    (c : String) :
    (e.setCol d l).getCol c = e.getCol c ∨
      (c = d ∧ (e.setCol d l).getCol c = l) := by
  unfold Entities.setCol
  by_cases h1 : d = "entity_name"
  · rw [if_pos h1]
    by_cases hc : c = d
    · right
      refine ⟨hc, ?_⟩
      rw [hc, h1]
      simp [Entities.getCol]
    · left
      have hcn : c ≠ "entity_name" := fun hh => hc (hh.trans h1.symm)
      simp [Entities.getCol, hcn]
  · rw [if_neg h1]
    by_cases h2 : d = "property_name"
    · rw [if_pos h2]
      by_cases hc : c = d
      · right
        refine ⟨hc, ?_⟩
        rw [hc, h2]
        simp [Entities.getCol]
      · left
        have hcn : c ≠ "property_name" := fun hh => hc (hh.trans h2.symm)
        simp [Entities.getCol, hcn]
    · rw [if_neg h2]
      by_cases h3 : d = "tenant_name"
      · rw [if_pos h3]
        by_cases hc : c = d
        · right
          refine ⟨hc, ?_⟩
          rw [hc, h3]
          simp [Entities.getCol]
        · left
          have hcn : c ≠ "tenant_name" := fun hh => hc (hh.trans h3.symm)
          simp [Entities.getCol, hcn]
      · rw [if_neg h3]
        by_cases h4 : d = "ledger_type"
        · rw [if_pos h4]
          by_cases hc : c = d
          · right
            refine ⟨hc, ?_⟩
            rw [hc, h4]
            simp [Entities.getCol]
          · left
            have hcn : c ≠ "ledger_type" := fun hh => hc (hh.trans h4.symm)
            simp [Entities.getCol, hcn]
        · rw [if_neg h4]
          by_cases h5 : d = "ledger_group"
          · rw [if_pos h5]
            by_cases hc : c = d
            · right
              refine ⟨hc, ?_⟩
              rw [hc, h5]
              simp [Entities.getCol]
            · left
              have hcn : c ≠ "ledger_group" := fun hh => hc (hh.trans h5.symm)
              simp [Entities.getCol, hcn]
          · rw [if_neg h5]
            by_cases h6 : d = "ledger_category"
            · rw [if_pos h6]
              by_cases hc : c = d
              · right
                refine ⟨hc, ?_⟩
                rw [hc, h6]
                simp [Entities.getCol]
              · left
                have hcn : c ≠ "ledger_category" := fun hh => hc (hh.trans h6.symm)
                simp [Entities.getCol, hcn]
            · rw [if_neg h6]
              by_cases h7 : d = "ledger_code"
              · rw [if_pos h7]
                by_cases hc : c = d
                · right
                  refine ⟨hc, ?_⟩
                  rw [hc, h7]
                  simp [Entities.getCol]
                · left
                  have hcn : c ≠ "ledger_code" := fun hh => hc (hh.trans h7.symm)
                  simp [Entities.getCol, hcn]
              · rw [if_neg h7]
                by_cases h8 : d = "ledger_description"
                · rw [if_pos h8]
                  by_cases hc : c = d
                  · right
                    refine ⟨hc, ?_⟩
                    rw [hc, h8]
                    simp [Entities.getCol]
                  · left
                    have hcn : c ≠ "ledger_description" := fun hh => hc (hh.trans h8.symm)
                    simp [Entities.getCol, hcn]
                · rw [if_neg h8]
                  left
                  rfl

theorem getCol_setCol_self (e : Entities) (l : List String) :
    ∀ d ∈ MISSING_CHECK_COLUMNS, (e.setCol d l).getCol d = l := by
  intro d hd
  simp only [MISSING_CHECK_COLUMNS, List.mem_cons, List.not_mem_nil,
    or_false] at hd
  rcases hd with rfl | rfl | rfl | rfl | rfl | rfl | rfl | rfl <;>
    simp [Entities.setCol, Entities.getCol]

theorem foldAppendCandidates_mem (f : String → List (String × String)) :
    ∀ (cols : List String) (acc : List (String × String)) (p : String × String),
      p ∈ cols.foldl (fun acc column => acc ++ f column) acc →
      p ∈ acc ∨ ∃ c ∈ cols, p ∈ f c := by
  intro cols
  induction cols with
  | nil => intro acc p hp; exact Or.inl (by simpa using hp)
  | cons c cs ih =>
    intro acc p hp
    rw [List.foldl_cons] at hp
    rcases ih _ p hp with h | ⟨c', hc', hpc'⟩
    · rcases List.mem_append.mp h with h | h
      · exact Or.inl h
      · exact Or.inr ⟨c, List.mem_cons_self _ _, h⟩
    · exact Or.inr ⟨c', List.mem_cons_of_mem _ hc', hpc'⟩

theorem dedupCandidatesAux_subset :
    ∀ (l seen : List (String × String)) (p : String × String),
      p ∈ dedupCandidatesAux seen l → p ∈ l := by
  intro l
  induction l with
  | nil => intro seen p hp; simp [dedupCandidatesAux] at hp
  | cons q rest ih =>
    intro seen p hp
    obtain ⟨qc, qv⟩ := q
    unfold dedupCandidatesAux at hp
    by_cases hk : seen.contains ((qc, normalizeText qv)) = true
    · simp only [hk, if_true] at hp
      exact List.mem_cons_of_mem _ (ih _ p hp)
    · simp only [hk, if_false] at hp
      rcases List.mem_cons.mp hp with rfl | hp
      · exact List.mem_cons_self _ _
      · exact List.mem_cons_of_mem _ (ih _ p hp)

theorem dedupCandidates_subset (l : List (String × String))
    (p : String × String) (hp : p ∈ dedupCandidates l) : p ∈ l :=
  dedupCandidatesAux_subset l [] p hp

theorem ledgerExactCandidates_mem_col (uv : String → List (Option String))
    (rawNorm : String) (p : String × String)
    (hp : p ∈ ledgerExactCandidates uv rawNorm) : p.1 ∈ ledgerColumns := by
  unfold ledgerExactCandidates at hp
  rcases foldAppendCandidates_mem _ _ _ _ hp with h | ⟨c, hc, hpc⟩
  · exact absurd h (List.not_mem_nil p)
  · obtain ⟨x, _, hfx⟩ := List.mem_filterMap.mp hpc
    simp only at hfx
    split_ifs at hfx
    obtain rfl := Option.some.inj hfx
    exact hc

theorem ledgerSubstringCandidates_mem_col (uv : String → List (Option String))
    (rawNorm : String) (p : String × String)
    (hp : p ∈ ledgerSubstringCandidates uv rawNorm) : p.1 ∈ ledgerColumns := by
  unfold ledgerSubstringCandidates at hp
  rcases foldAppendCandidates_mem _ _ _ _ hp with h | ⟨c, hc, hpc⟩
  · exact absurd h (List.not_mem_nil p)
  · obtain ⟨x, _, hfx⟩ := List.mem_filterMap.mp hpc
    simp only at hfx
    split_ifs at hfx
    obtain rfl := Option.some.inj hfx
    exact hc

theorem classify_resolved_col (uv : String → List (Option String))
    (raw c v : String)
    (h : classifyLedgerMention uv raw = .resolvedM c v) :
    c ∈ ledgerColumns := by
  unfold classifyLedgerMention at h
  by_cases h1 : pyStrip raw = ""
  · rw [if_pos h1] at h; exact absurd h (by simp)
  · rw [if_neg h1] at h
    by_cases h2 : normalizeText (pyStrip raw) = ""
    · rw [if_pos h2] at h; exact absurd h (by simp)
    · rw [if_neg h2] at h
      rcases hE : dedupCandidates
          (ledgerExactCandidates uv (normalizeText (pyStrip raw))) with
        _ | ⟨⟨c1, v1⟩, E⟩
      · rcases hS : dedupCandidates
            (ledgerSubstringCandidates uv (normalizeText (pyStrip raw))) with
          _ | ⟨⟨c2, v2⟩, S⟩
        · rw [hE, hS] at h
          simp at h
        · cases S with
          | nil =>
            rw [hE, hS] at h
            simp only [MentionOutcome.resolvedM.injEq] at h
            obtain ⟨rfl, rfl⟩ := h
            have hm : (c2, v2) ∈ dedupCandidates
                (ledgerSubstringCandidates uv (normalizeText (pyStrip raw))) := by
              rw [hS]; exact List.mem_cons_self _ _
            exact ledgerSubstringCandidates_mem_col uv _ (c2, v2)
              (dedupCandidates_subset _ _ hm)
          | cons q S' =>
            rw [hE, hS] at h
            simp at h
      · cases E with
        | nil =>
          rw [hE] at h
          simp only [MentionOutcome.resolvedM.injEq] at h
          obtain ⟨rfl, rfl⟩ := h
          have hm : (c1, v1) ∈ dedupCandidates
              (ledgerExactCandidates uv (normalizeText (pyStrip raw))) := by
            rw [hE]; exact List.mem_cons_self _ _
          exact ledgerExactCandidates_mem_col uv _ (c1, v1)
            (dedupCandidates_subset _ _ hm)
        | cons q E' =>
          rw [hE] at h
          simp at h

theorem ledgerColumns_subset_missing :
    ∀ c ∈ ledgerColumns, c ∈ MISSING_CHECK_COLUMNS := by
  intro c hc
  simp only [ledgerColumns, List.mem_cons, List.not_mem_nil, or_false] at hc
  rcases hc with rfl | rfl | rfl | rfl | rfl <;> simp [MISSING_CHECK_COLUMNS]

theorem mentionStep_preserves_member (uv : String → List (Option String))
    (acc : Entities × List String) (m : String) (c v : String)
    (h : ∃ w ∈ acc.1.getCol c, normalizeText w = normalizeText v) :
    ∃ w ∈ ((mentionStep uv acc m).1).getCol c,
      normalizeText w = normalizeText v := by
  unfold mentionStep
  cases hcl : classifyLedgerMention uv m with
  | skip => exact h
  | unresolvedM => exact h
  | resolvedM d w =>
    simp only
    rcases getCol_setCol acc.1 d
        (if (acc.1.getCol d).any (fun existing =>
            normalizeText existing = normalizeText w) then acc.1.getCol d
          else acc.1.getCol d ++ [w]) c with
      hsame | ⟨hcd, hnew⟩
    · rw [hsame]; exact h
    · rw [hnew]
      subst hcd
      obtain ⟨x, hx, hnx⟩ := h
      split
      · exact ⟨x, hx, hnx⟩
      · exact ⟨x, List.mem_append_left _ hx, hnx⟩

theorem mentionFold_unresolved (uv : String → List (Option String)) :
    ∀ (l : List String) (acc : Entities × List String),
      (l.foldl (mentionStep uv) acc).2 =
        acc.2 ++ (l.filter
          (fun m => classifyLedgerMention uv m = .unresolvedM)).map pyStrip := by
  intro l
  induction l with
  | nil => intro acc; simp
  | cons m ms ih =>
    intro acc
    rw [List.foldl_cons, ih]
    cases hcl : classifyLedgerMention uv m <;>
      simp [mentionStep, hcl, List.filter_cons]

theorem mentionFold_member (uv : String → List (Option String)) (c v : String) :
    ∀ (l : List String) (acc : Entities × List String),
      ((∃ m ∈ l, classifyLedgerMention uv m = .resolvedM c v) ∨
        (∃ w ∈ acc.1.getCol c, normalizeText w = normalizeText v)) →
      ∃ w ∈ ((l.foldl (mentionStep uv) acc).1).getCol c,
        normalizeText w = normalizeText v := by
  intro l
  induction l with
  | nil =>
    intro acc h
    rcases h with ⟨m, hm, _⟩ | h
    · exact absurd hm (List.not_mem_nil m)
    · simpa using h
  | cons m ms ih =>
    intro acc h
    rw [List.foldl_cons]
    rcases h with ⟨m', hm', hcl⟩ | h
    · rcases List.mem_cons.mp hm' with rfl | hm'
      · apply ih
        right
        unfold mentionStep
        rw [hcl]
        simp only
        rw [getCol_setCol_self acc.1 _ c
          (ledgerColumns_subset_missing c (classify_resolved_col uv m' c v hcl))]
        by_cases hany : (acc.1.getCol c).any (fun existing =>
            normalizeText existing = normalizeText v) = true
        · rw [if_pos hany]
          obtain ⟨x, hx, hnx⟩ := List.any_eq_true.mp hany
          exact ⟨x, hx, by simpa using hnx⟩
        · rw [if_neg hany]
          exact ⟨v, List.mem_append_right _ (List.mem_singleton.mpr rfl), rfl⟩
      · exact ih _ (Or.inl ⟨m', hm', hcl⟩)
    · exact ih _ (Or.inr (mentionStep_preserves_member uv acc m c v h))

theorem resolveLedgerRawMentions_unresolved (e : Entities)
    (uv : String → List (Option String)) :
    (resolveLedgerRawMentions e uv).2 =
      (e.ledger_raw_mentions.filter
        (fun m => classifyLedgerMention uv m = .unresolvedM)).map pyStrip := by
  unfold resolveLedgerRawMentions
  by_cases h : e.ledger_raw_mentions = []
  · simp [h]
  · simp only [h, ite_false, if_neg]
    rw [mentionFold_unresolved uv e.ledger_raw_mentions (e, [])]
    simp

theorem resolveLedgerRawMentions_member (e : Entities)
    (uv : String → List (Option String)) (c v raw : String)
    (hmem : raw ∈ e.ledger_raw_mentions)
    (hcl : classifyLedgerMention uv raw = .resolvedM c v) :
    ∃ w ∈ (resolveLedgerRawMentions e uv).1.getCol c,
      normalizeText w = normalizeText v := by
  unfold resolveLedgerRawMentions
  have h : e.ledger_raw_mentions ≠ [] := by
    intro hh; rw [hh] at hmem; exact List.not_mem_nil raw hmem
  simp only [h, ite_false, if_neg]
  have hg : ({ (e.ledger_raw_mentions.foldl (mentionStep uv) (e, [])).1 with
      ledger_raw_mentions :=
        (e.ledger_raw_mentions.foldl (mentionStep uv) (e, [])).2 }).getCol c =
      ((e.ledger_raw_mentions.foldl (mentionStep uv) (e, [])).1).getCol c := rfl
  rw [hg]
  exact mentionFold_member uv c v e.ledger_raw_mentions (e, [])
    (Or.inl ⟨raw, hmem, hcl⟩)

theorem resolveRelativeTimeScope_raw_mentions (now : Int × Nat) (e : Entities) :
    (resolveRelativeTimeScope now e).ledger_raw_mentions =
      e.ledger_raw_mentions := by
  unfold resolveRelativeTimeScope
  by_cases h : (canonicalizeTimeScope
      (applyRelativePeriod now e.time_scope)).mode = "exact" <;> simp [h]

theorem extractor_blocks_on_unresolved (now : Int × Nat) (s : GraphState)
    (hpre : s.entities_preextracted = true)
    (hunres : (resolveLedgerRawMentions
        (resolveRelativeTimeScope now s.entities)
        s.data_profile.uniqueValues).2 ≠ []) :
    (entityExtractorAgent now s).final_answer = MSG_NOT_PRESENT ∧
      (entityExtractorAgent now s).error_type = "not_present" := by
  unfold entityExtractorAgent
  rw [hpre]
  rw [if_pos rfl]
  dsimp only
  have hmiss :
      (missingRequestedValues
          (resolveLedgerRawMentions
            (resolveRelativeTimeScope now { s with entities_preextracted := false }.entities)
            { s with entities_preextracted := false }.data_profile.uniqueValues).1
          { s with entities_preextracted := false }.data_profile).2 ++
        (if (resolveLedgerRawMentions
            (resolveRelativeTimeScope now { s with entities_preextracted := false }.entities)
            { s with entities_preextracted := false }.data_profile.uniqueValues).2 ≠ [] then
          [("ledger_raw_mentions",
            (resolveLedgerRawMentions
              (resolveRelativeTimeScope now { s with entities_preextracted := false }.entities)
              { s with entities_preextracted := false }.data_profile.uniqueValues).2)]
        else []) ≠ [] := by
    rw [if_pos hunres]
    intro hh
    rcases List.append_eq_nil.mp hh with ⟨_, h2⟩
    simp at h2
  rw [if_pos hmiss]
  exact ⟨rfl, rfl⟩

theorem classify_eq_of_strip_eq (uv : String → List (Option String))
    (m raw : String) (h : pyStrip m = pyStrip raw) :
    classifyLedgerMention uv m = classifyLedgerMention uv raw := by
  unfold classifyLedgerMention
  rw [h]

/-- C4 (amended): for a raw ledger mention with a non-empty normalized form,
exactly one deduplicated exact `(column, value)` candidate (or, failing that,
exactly one substring candidate) resolves the mention into that column's
entity list and keeps it out of the unresolved set; in every other case the
mention is classified unresolved, lands in the unresolved output, and the
extractor terminates the turn with the not-present answer.  (Mentions whose
normalized form is empty are silently dropped — see the counterexample.) -/
theorem ledger_raw_mention_resolution (uv : String → List (Option String))
    (e : Entities) (raw : String)
    (hmem : raw ∈ e.ledger_raw_mentions)
    (hn : normalizeText (pyStrip raw) ≠ "") :
    (∀ c v,
      dedupCandidates
          (ledgerExactCandidates uv (normalizeText (pyStrip raw))) = [(c, v)] →
      classifyLedgerMention uv raw = .resolvedM c v) ∧
    (∀ c v,
      dedupCandidates
          (ledgerExactCandidates uv (normalizeText (pyStrip raw))) = [] →
      dedupCandidates
          (ledgerSubstringCandidates uv (normalizeText (pyStrip raw))) =
        [(c, v)] →
      classifyLedgerMention uv raw = .resolvedM c v) ∧
    ((dedupCandidates
        (ledgerExactCandidates uv (normalizeText (pyStrip raw)))).length ≠ 1 →
      ¬ (dedupCandidates
            (ledgerExactCandidates uv (normalizeText (pyStrip raw))) = [] ∧
          (dedupCandidates
            (ledgerSubstringCandidates uv
              (normalizeText (pyStrip raw)))).length = 1) →
      classifyLedgerMention uv raw = .unresolvedM) ∧
    (∀ c v, classifyLedgerMention uv raw = .resolvedM c v →
      (∃ w ∈ (resolveLedgerRawMentions e uv).1.getCol c,
        normalizeText w = normalizeText v) ∧
      ¬ pyStrip raw ∈ (resolveLedgerRawMentions e uv).2) ∧
    (classifyLedgerMention uv raw = .unresolvedM →
      pyStrip raw ∈ (resolveLedgerRawMentions e uv).2 ∧
      ∀ (now : Int × Nat) (s : GraphState),
        s.entities_preextracted = true → s.entities = e →
        s.data_profile.uniqueValues = uv →
        (entityExtractorAgent now s).final_answer = MSG_NOT_PRESENT ∧
        (entityExtractorAgent now s).error_type = "not_present") := by
  have hstrip : pyStrip raw ≠ "" := fun hh => hn (by rw [hh]; rfl)
  refine ⟨?_, ?_, ?_, ?_, ?_⟩
  · intro c v hE
    unfold classifyLedgerMention
    rw [if_neg hstrip, if_neg hn, hE]
  · intro c v hE hS
    unfold classifyLedgerMention
    rw [if_neg hstrip, if_neg hn, hE, hS]
  · intro h1 h2
    unfold classifyLedgerMention
    rw [if_neg hstrip, if_neg hn]
    rcases hE : dedupCandidates
        (ledgerExactCandidates uv (normalizeText (pyStrip raw))) with
      _ | ⟨⟨c1, v1⟩, E⟩
    · rcases hS : dedupCandidates
          (ledgerSubstringCandidates uv (normalizeText (pyStrip raw))) with
        _ | ⟨⟨c2, v2⟩, S⟩
      · rfl
      · cases S with
        | nil => exact absurd ⟨hE, by rw [hS]; rfl⟩ h2
        | cons q S' => rfl
    · cases E with
      | nil => exact absurd (by rw [hE]; rfl : (dedupCandidates
          (ledgerExactCandidates uv (normalizeText (pyStrip raw)))).length = 1) h1
      | cons q E' => rfl
  · intro c v hcl
    refine ⟨resolveLedgerRawMentions_member e uv c v raw hmem hcl, ?_⟩
    rw [resolveLedgerRawMentions_unresolved]
    intro hinmem
    obtain ⟨m, hmf, heq⟩ := List.mem_map.mp hinmem
    obtain ⟨_, hmcl⟩ := List.mem_filter.mp hmf
    rw [classify_eq_of_strip_eq uv m raw heq, hcl] at hmcl
    simp at hmcl
  · intro hcl
    constructor
    · rw [resolveLedgerRawMentions_unresolved]
      exact List.mem_map.mpr
        ⟨raw, List.mem_filter.mpr ⟨hmem, by simp [hcl]⟩, rfl⟩
    · intro now s hpre hent hup
      apply extractor_blocks_on_unresolved now s hpre
      rw [hent, hup, resolveLedgerRawMentions_unresolved,
        resolveRelativeTimeScope_raw_mentions]
      apply List.ne_nil_of_mem (a := pyStrip raw)
      exact List.mem_map.mpr
        ⟨raw, List.mem_filter.mpr ⟨hmem, by simp [hcl]⟩, rfl⟩

/-- Counterexample to C4 as stated: the raw mention `"!!!"` has zero exact and
zero substring matches, yet it is silently dropped instead of being folded
into the missing-value set — the extractor leaves the turn unblocked. -/
theorem ledger_raw_mention_drop_counterexample :
    ledgerExactCandidates
        (fun c => if c = "ledger_code" then [some "4000"] else [])
        (normalizeText (pyStrip "!!!")) = [] ∧
    classifyLedgerMention
        (fun c => if c = "ledger_code" then [some "4000"] else [])
        "!!!" = .skip ∧
    (resolveLedgerRawMentions { ledger_raw_mentions := ["!!!"] }
        (fun c => if c = "ledger_code" then [some "4000"] else [])).2 = [] ∧
    (entityExtractorAgent (2025, 6)
        { user_query := "x",
          entities := { ledger_raw_mentions := ["!!!"] },
          entities_preextracted := true,
          data_profile :=
            { uniqueValues :=
                fun c => if c = "ledger_code" then [some "4000"] else [] } }).final_answer =
      "" ∧
    (entityExtractorAgent (2025, 6)
        { user_query := "x",
          entities := { ledger_raw_mentions := ["!!!"] },
          entities_preextracted := true,
          data_profile :=
            { uniqueValues :=
                fun c => if c = "ledger_code" then [some "4000"] else [] } }).error_type =
      "" :=
  ⟨by decide, by decide, by decide, by decide, by decide⟩

/-- Witness for the amended C4 theorem: a uniquely exact-matching mention is
classified as resolved into `ledger_code` and lands in that column's list. -/
theorem ledger_raw_mention_resolution_witness :
    ("Revenue Rent Taxed" ∈
      ({ ledger_raw_mentions := ["Revenue Rent Taxed"] } :
        Entities).ledger_raw_mentions) ∧
    normalizeText (pyStrip "Revenue Rent Taxed") ≠ "" ∧
    classifyLedgerMention
        (fun c => if c = "ledger_code" then [some "revenue_rent_taxed"] else [])
        "Revenue Rent Taxed" =
      .resolvedM "ledger_code" "revenue_rent_taxed" := by
  refine ⟨by decide, by decide, ?_⟩
  exact (ledger_raw_mention_resolution
    (fun c => if c = "ledger_code" then [some "revenue_rent_taxed"] else [])
    { ledger_raw_mentions := ["Revenue Rent Taxed"] }
    "Revenue Rent Taxed" (by decide) (by decide)).1
    "ledger_code" "revenue_rent_taxed" (by decide)

theorem dropWhile_head_false (p : Char → Bool) :
    ∀ (l : List Char) (c : Char) (cs : List Char),
      l.dropWhile p = c :: cs → p c = false := by
  intro l
  induction l with
  | nil => intro c cs h; simp [List.dropWhile] at h
  | cons x xs ih =>
    intro c cs h
    by_cases hx : p x = true
    · rw [List.dropWhile_cons_of_pos hx] at h
      exact ih c cs h
    · rw [List.dropWhile_cons_of_neg hx] at h
      obtain ⟨rfl, _⟩ := List.cons.inj h
      exact Bool.not_eq_true _ ▸ hx

theorem dropWhile_append_last_false (p : Char → Bool) (a : Char)
    (ha : p a = false) :
    ∀ m : List Char, (m ++ [a]).dropWhile p = m.dropWhile p ++ [a] := by
  intro m
  induction m with
  | nil => simp [List.dropWhile, ha]
  | cons c cs ih =>
    by_cases hc : p c = true
    · rw [List.cons_append, List.dropWhile_cons_of_pos hc,
        List.dropWhile_cons_of_pos hc, ih]
    · rw [List.cons_append, List.dropWhile_cons_of_neg hc,
        List.dropWhile_cons_of_neg hc, List.cons_append]

theorem dropWhile_eq_self_of_head_false (p : Char → Bool) (l : List Char)
    (h : ∀ c cs, l = c :: cs → p c = false) : l.dropWhile p = l := by
  cases l with
  | nil => rfl
  | cons c cs => exact List.dropWhile_cons_of_neg (by simp [h c cs rfl])

theorem stripChars_idem (p : Char → Bool) (l : List Char) :
    ((((((l.dropWhile p).reverse.dropWhile p).reverse.dropWhile
        p).reverse.dropWhile p).reverse) : List Char) =
      ((l.dropWhile p).reverse.dropWhile p).reverse := by
  cases hA : l.dropWhile p with
  | nil => simp
  | cons a as =>
    have ha : p a = false := dropWhile_head_false p _ a as hA
    have hrev : (a :: as).reverse = as.reverse ++ [a] := by simp
    rw [hrev, dropWhile_append_last_false p a ha]
    rw [List.reverse_append]
    simp only [List.reverse_cons, List.reverse_nil, List.nil_append,
      List.singleton_append]
    rw [List.dropWhile_cons_of_neg (by simp [ha])]
    rw [List.reverse_cons]
    rw [dropWhile_append_last_false p a ha]
    rw [List.reverse_reverse]
    rw [dropWhile_eq_self_of_head_false p
      ((as.reverse.dropWhile p))
      (fun c cs h => dropWhile_head_false p as.reverse c cs h)]
    simp

theorem pyStrip_idem (s : String) : pyStrip (pyStrip s) = pyStrip s := by
  unfold pyStrip
  exact congrArg String.mk (stripChars_idem isPySpace s.data)

/-- C3 (amended): a generated code string matching any forbidden pattern is
rejected whole by the gate with the generic "forbidden operations" failure
before the execution collaborator is consulted (the outcome is independent of
every collaborator), and the executor maps the rejection to the not-present
error category with the fixed not-present answer — it does not route to a
clarification request, and the raw error text is never surfaced. -/
theorem forbidden_code_gate (co : Collaborators) (s : GraphState)
    (hclar : s.needs_clarification = false)
    (hfinal : s.final_answer = "")
    (hforb : matchesForbidden (pyStrip s.python_code) = true) :
    executeGeneratedPythonCode co.execRun (pyStrip s.python_code) =
      .error "Generated code contains forbidden operations." ∧
    (executorResponseAgent co s).final_answer = MSG_NOT_PRESENT ∧
    (executorResponseAgent co s).error_type = "not_present" ∧
    (executorResponseAgent co s).needs_clarification = false ∧
    (∀ co₂ : Collaborators,
      executorResponseAgent co s = executorResponseAgent co₂ s) := by
  have hne : pyStrip s.python_code ≠ "" := by
    intro hh
    rw [hh] at hforb
    exact absurd hforb (by decide)
  have hstrip2 : pyStrip (pyStrip s.python_code) ≠ "" := by
    rw [pyStrip_idem]; exact hne
  have hgate : ∀ er : Except String ExecRes,
      executeGeneratedPythonCode er (pyStrip s.python_code) =
        .error "Generated code contains forbidden operations." := by
    intro er
    unfold executeGeneratedPythonCode
    rw [if_neg hstrip2, if_pos hforb]
  have hexec : ∀ co₂ : Collaborators,
      executorResponseAgent co₂ s =
        { s with error_type := "not_present",
                 final_answer := MSG_NOT_PRESENT } := by
    intro co₂
    unfold executorResponseAgent
    rw [hclar]
    rw [if_neg (by simp)]
    rw [hfinal]
    rw [if_neg (by simp)]
    dsimp only
    rw [if_neg hne, hgate co₂.execRun]
  refine ⟨hgate co.execRun, ?_, ?_, ?_, ?_⟩
  · rw [hexec co]
  · rw [hexec co]
  · rw [hexec co]
    exact hclar
  · intro co₂
    rw [hexec co, hexec co₂]

/-- Counterexample to C3 as stated: a full turn whose codegen collaborator
produces `import os` ends with the fixed not-present answer and no
clarification request — gate rejection is treated as an execution failure,
not routed to clarification. -/
theorem forbidden_code_counterexample :
    matchesForbidden "import os" = true ∧
    (runTurn
        { classify := .ok
            ({ intent := "dataset_knowledge", action := "continue" }, {}),
          codegen := .ok { task_type := "asset_details", python_code := "import os" },
          execRun := .ok { result_df := some 3, filtered_row_count := some 3 },
          resultAnswer := .ok "rows found" }
        (2025, 6) (buildInitialState "show rent data" [] {})).final_answer =
      MSG_NOT_PRESENT ∧
    (runTurn
        { classify := .ok
            ({ intent := "dataset_knowledge", action := "continue" }, {}),
          codegen := .ok { task_type := "asset_details", python_code := "import os" },
          execRun := .ok { result_df := some 3, filtered_row_count := some 3 },
          resultAnswer := .ok "rows found" }
        (2025, 6) (buildInitialState "show rent data" [] {})).needs_clarification =
      false :=
  ⟨by decide, by decide, by decide⟩

/-- Witness for the gate theorem on a state carrying `import os`. -/
theorem forbidden_code_gate_witness :
    (({ python_code := "import os", user_query := "q" } :
        GraphState).needs_clarification = false ∧
      ({ python_code := "import os", user_query := "q" } :
        GraphState).final_answer = "" ∧
      matchesForbidden
        (pyStrip ({ python_code := "import os", user_query := "q" } :
          GraphState).python_code) = true) ∧
    (executorResponseAgent {}
        { python_code := "import os", user_query := "q" }).final_answer =
      MSG_NOT_PRESENT := by
  refine ⟨⟨by decide, by decide, by decide⟩, ?_⟩
  exact (forbidden_code_gate {} { python_code := "import os", user_query := "q" }
    (by decide) (by decide) (by decide)).2.1

theorem finalizeNode_preserves (s : GraphState) :
    (finalizeNode s).needs_clarification = s.needs_clarification ∧
    (finalizeNode s).clarification_question = s.clarification_question ∧
    (finalizeNode s).error_type = s.error_type := by
  unfold finalizeNode
  by_cases h1 : s.final_answer = "" ∧ s.error_type ≠ "" <;>
    by_cases h2 : s.final_answer ≠ "" <;>
      simp [h1, h2] <;> split <;> simp_all

theorem fallbackForErrorType_ne_empty (e : String) :
    fallbackForErrorType e ≠ "" := by
  unfold fallbackForErrorType
  split_ifs <;> decide

theorem finalizeNode_answer_of_ne (s : GraphState)
    (h : s.final_answer ≠ "" ∨ s.error_type ≠ "") :
    (finalizeNode s).final_answer ≠ "" := by
  have hfb := fallbackForErrorType_ne_empty s.error_type
  by_cases hf : s.final_answer = "" <;> by_cases he : s.error_type = "" <;>
    simp_all [finalizeNode]

theorem finalizeNode_empty (s : GraphState)
    (h1 : s.final_answer = "") (h2 : s.error_type = "") :
    finalizeNode s = s := by
  simp [finalizeNode, h1, h2]

theorem clarificationNode_preserves (s : GraphState) :
    (clarificationNode s).needs_clarification = s.needs_clarification ∧
    (clarificationNode s).clarification_question = s.clarification_question ∧
    (clarificationNode s).error_type = s.error_type := by
  unfold clarificationNode
  split <;> exact ⟨rfl, rfl, rfl⟩

theorem clarify_then_finalize_goal (s : GraphState)
    (h : s.needs_clarification = true ∨ s.final_answer ≠ "") :
    (finalizeNode (clarificationNode s)).final_answer ≠ "" ∨
      ((finalizeNode (clarificationNode s)).needs_clarification = true ∧
        (finalizeNode (clarificationNode s)).clarification_question = "" ∧
        (finalizeNode (clarificationNode s)).error_type = "") := by
  by_cases hc : s.needs_clarification = true ∧ s.clarification_question ≠ ""
  · left
    apply finalizeNode_answer_of_ne
    left
    unfold clarificationNode
    rw [if_pos (by simp [hc.1, hc.2])]
    exact hc.2
  · have hcs : clarificationNode s = s := by
      unfold clarificationNode
      rw [if_neg (by simpa using hc)]
    rw [hcs]
    by_cases hf : s.final_answer ≠ ""
    · exact Or.inl (finalizeNode_answer_of_ne s (Or.inl hf))
    · have hneeds : s.needs_clarification = true := by
        rcases h with h | h
        · exact h
        · exact absurd h hf
      have hq : s.clarification_question = "" := by
        by_contra hq
        exact hc ⟨hneeds, hq⟩
      by_cases he : s.error_type = ""
      · right
        rw [finalizeNode_empty s (by simpa using hf) he]
        exact ⟨hneeds, hq, he⟩
      · exact Or.inl (finalizeNode_answer_of_ne s (Or.inr he))

theorem timeRangeNotPresentAnswer_ne_empty (e : Entities) (p : DataProfile)
    (v : String) (h : timeRangeNotPresentAnswer e p = some v) : v ≠ "" := by
  unfold timeRangeNotPresentAnswer at h
  cases hr : formatTimeScopeRequest e.time_scope with
  | none => rw [hr] at h; simp at h
  | some r =>
    cases ha : formatAvailableTimeRange p with
    | none => rw [hr, ha] at h; simp at h
    | some a =>
      rw [hr, ha] at h
      simp only [Option.some.injEq] at h
      subst h
      intro hv
      have := congrArg String.data hv
      rw [String.data_append, String.data_append, String.data_append] at this
      simp at this

theorem executor_answer_nonempty (co : Collaborators) (s : GraphState)
    (hans : ∀ t, co.resultAnswer = .ok t → t ≠ "")
    (hclar : s.needs_clarification = false)
    (hfinal : s.final_answer = "") :
    (executorResponseAgent co s).final_answer ≠ "" := by
  unfold executorResponseAgent
  rw [hclar]
  rw [if_neg (by simp)]
  rw [hfinal]
  rw [if_neg (by simp)]
  dsimp only
  by_cases h0 : pyStrip s.python_code = ""
  · rw [if_pos h0]
    simp only
    decide
  · rw [if_neg h0]
    cases hx : executeGeneratedPythonCode co.execRun (pyStrip s.python_code) with
    | error msg => simp only; decide
    | ok res =>
      simp only
      by_cases hf : res.filtered_row_count = some 0
      · rw [if_pos hf]
        simp only
        cases ht : timeRangeNotPresentAnswer s.entities s.data_profile with
        | none => simp only [ht, Option.getD_none]; decide
        | some v =>
          simp only [ht, Option.getD_some]
          exact timeRangeNotPresentAnswer_ne_empty s.entities s.data_profile v ht
      · rw [if_neg hf]
        cases hdf : res.result_df with
        | none => simp only; decide
        | some n =>
          simp only
          cases hra : co.resultAnswer with
          | ok t =>
            simp only
            exact hans t hra
          | error msg => simp only; decide

theorem sharedRoute_cases (s : GraphState) :
    (sharedRouteDecision s = "finalize" ∧ s.final_answer ≠ "") ∨
    (sharedRouteDecision s = "clarify" ∧ s.final_answer = "" ∧
      s.needs_clarification = true) ∨
    (sharedRouteDecision s = "continue" ∧ s.final_answer = "" ∧
      s.needs_clarification = false) := by
  unfold sharedRouteDecision
  by_cases hf : s.final_answer = ""
  · rw [if_neg (not_not_intro hf)]
    by_cases hn : s.needs_clarification = true
    · rw [if_pos hn]
      exact Or.inr (Or.inl ⟨rfl, hf, hn⟩)
    · rw [if_neg hn]
      exact Or.inr (Or.inr ⟨rfl, hf, by simpa using hn⟩)
  · rw [if_pos hf]
    exact Or.inl ⟨rfl, hf⟩

theorem routeAfterGuard_finalize (s : GraphState)
    (h : routeAfterGuard s = "finalize") : s.final_answer ≠ "" := by
  unfold routeAfterGuard at h
  rcases sharedRoute_cases s with ⟨h1, h2⟩ | ⟨h1, h2⟩ | ⟨h1, h2⟩ <;>
    rw [h1] at h <;> simp_all

theorem routeAfterGuard_clarify (s : GraphState)
    (h : routeAfterGuard s = "clarify") :
    s.final_answer = "" ∧ s.needs_clarification = true := by
  unfold routeAfterGuard at h
  rcases sharedRoute_cases s with ⟨h1, h2⟩ | ⟨h1, h2⟩ | ⟨h1, h2⟩ <;>
    rw [h1] at h <;> simp_all

theorem routeAfterExtractor_finalize (s : GraphState)
    (h : routeAfterExtractor s = "finalize") : s.final_answer ≠ "" := by
  unfold routeAfterExtractor at h
  rcases sharedRoute_cases s with ⟨h1, h2⟩ | ⟨h1, h2⟩ | ⟨h1, h2⟩ <;>
    rw [h1] at h <;> simp_all

theorem routeAfterExtractor_clarify (s : GraphState)
    (h : routeAfterExtractor s = "clarify") :
    s.final_answer = "" ∧ s.needs_clarification = true := by
  unfold routeAfterExtractor at h
  rcases sharedRoute_cases s with ⟨h1, h2⟩ | ⟨h1, h2⟩ | ⟨h1, h2⟩ <;>
    rw [h1] at h <;> simp_all

theorem routeAfterQueryAgent_finalize (s : GraphState)
    (h : routeAfterQueryAgent s = "finalize") : s.final_answer ≠ "" := by
  unfold routeAfterQueryAgent at h
  rcases sharedRoute_cases s with ⟨h1, h2⟩ | ⟨h1, h2⟩ | ⟨h1, h2⟩ <;>
    rw [h1] at h <;> simp_all

theorem routeAfterQueryAgent_clarify (s : GraphState)
    (h : routeAfterQueryAgent s = "clarify") :
    s.final_answer = "" ∧ s.needs_clarification = true := by
  unfold routeAfterQueryAgent at h
  rcases sharedRoute_cases s with ⟨h1, h2⟩ | ⟨h1, h2⟩ | ⟨h1, h2⟩ <;>
    rw [h1] at h <;> simp_all

theorem routeAfterQueryAgent_other (s : GraphState)
    (h1 : routeAfterQueryAgent s ≠ "finalize")
    (h2 : routeAfterQueryAgent s ≠ "clarify") :
    s.final_answer = "" ∧ s.needs_clarification = false := by
  rcases sharedRoute_cases s with ⟨h, hx⟩ | ⟨h, hx⟩ | ⟨h, hx⟩
  · exact absurd (by unfold routeAfterQueryAgent; rw [h]; rfl) h1
  · exact absurd (by unfold routeAfterQueryAgent; rw [h]; rfl) h2
  · exact hx

/-- C2 (amended): when the terminal Finalize node completes, `final_answer`
is non-empty — provided the result-answer collaborator never returns an empty
string after stripping — EXCEPT in one uncovered case: when a stage requested
clarification with an EMPTY clarification question and no error category was
recorded, the turn ends with an empty `final_answer`.  (The original claim
asserted a non-empty answer even in that case; the counterexample refutes it.) -/
theorem turn_answer_totality (co : Collaborators) (now : Int × Nat)
    (s0 : GraphState)
    (hans : ∀ t, co.resultAnswer = Except.ok t → t ≠ "") :
    (runTurn co now s0).final_answer ≠ "" ∨
      ((runTurn co now s0).needs_clarification = true ∧
        (runTurn co now s0).clarification_question = "" ∧
        (runTurn co now s0).error_type = "") := by
  unfold runTurn
  by_cases h1 : routeAfterGuard (guardRouterAgent co s0) = "finalize"
  · rw [if_pos h1]
    exact Or.inl (finalizeNode_answer_of_ne _
      (Or.inl (routeAfterGuard_finalize _ h1)))
  · rw [if_neg h1]
    by_cases h2 : routeAfterGuard (guardRouterAgent co s0) = "clarify"
    · rw [if_pos h2]
      exact clarify_then_finalize_goal _
        (Or.inl (routeAfterGuard_clarify _ h2).2)
    · rw [if_neg h2]
      by_cases h3 : routeAfterExtractor
          (entityExtractorAgent now (guardRouterAgent co s0)) = "finalize"
      · rw [if_pos h3]
        exact Or.inl (finalizeNode_answer_of_ne _
          (Or.inl (routeAfterExtractor_finalize _ h3)))
      · rw [if_neg h3]
        by_cases h4 : routeAfterExtractor
            (entityExtractorAgent now (guardRouterAgent co s0)) = "clarify"
        · rw [if_pos h4]
          exact clarify_then_finalize_goal _
            (Or.inl (routeAfterExtractor_clarify _ h4).2)
        · rw [if_neg h4]
          by_cases h5 : routeAfterQueryAgent
              (queryAgent co (entityExtractorAgent now
                (guardRouterAgent co s0))) = "finalize"
          · rw [if_pos h5]
            exact Or.inl (finalizeNode_answer_of_ne _
              (Or.inl (routeAfterQueryAgent_finalize _ h5)))
          · rw [if_neg h5]
            by_cases h6 : routeAfterQueryAgent
                (queryAgent co (entityExtractorAgent now
                  (guardRouterAgent co s0))) = "clarify"
            · rw [if_pos h6]
              exact clarify_then_finalize_goal _
                (Or.inl (routeAfterQueryAgent_clarify _ h6).2)
            · rw [if_neg h6]
              exact Or.inl (finalizeNode_answer_of_ne _ (Or.inl
                (executor_answer_nonempty co _ hans
                  (routeAfterQueryAgent_other _ h5 h6).2
                  (routeAfterQueryAgent_other _ h5 h6).1)))

/-- C2 counterexample: the intent classifier may legally return entities with
`needs_clarification = true` and an empty `clarification_prompt`.  The guard
stores them, the extractor passes the flag through, the clarify edge fires,
but `clarification_node` refuses to copy an empty question and `finalize_node`
finds no error category — so the turn ends with `final_answer = ""`, refuting
the claim that the terminal Finalize always leaves a non-empty answer. -/
theorem turn_empty_answer_counterexample :
    (runTurn
      { classify := Except.ok
          ({ intent := "dataset_knowledge", action := "continue" },
            { needs_clarification := true, clarification_prompt := "" }) }
      (2025, 6) (buildInitialState "show rent please" [] {})).final_answer = ""
    ∧ (runTurn
      { classify := Except.ok
          ({ intent := "dataset_knowledge", action := "continue" },
            { needs_clarification := true, clarification_prompt := "" }) }
      (2025, 6)
      (buildInitialState "show rent please" [] {})).needs_clarification = true := by
  constructor <;> decide

/-- Witness for C2 (amended): a concrete turn where the intent classifier
fails; the guard requests clarification with a fixed non-empty question. -/
theorem turn_answer_totality_witness :
    (runTurn ({} : Collaborators) (2025, 6)
        (buildInitialState "what is rent" [] {})).final_answer ≠ "" ∨
      ((runTurn ({} : Collaborators) (2025, 6)
          (buildInitialState "what is rent" [] {})).needs_clarification = true ∧
        (runTurn ({} : Collaborators) (2025, 6)
            (buildInitialState "what is rent" [] {})).clarification_question
            = "" ∧
        (runTurn ({} : Collaborators) (2025, 6)
            (buildInitialState "what is rent" [] {})).error_type = "") :=
  turn_answer_totality {} (2025, 6) (buildInitialState "what is rent" [] {})
    (fun _ h => Except.noConfusion h)

/-- C7: metric eligibility holds exactly as specified: an empty or
`"unknown"` label (case-insensitive, after stripping) is always eligible; a
non-empty label absent from the profile's metric registry is ineligible; a
registered metric is eligible iff every required column is present in the
profile's column list; with the shipped registry, `"pnl"` against a profile
lacking a `"profit"` column is ineligible, while `"unknown"` is always
eligible. -/
theorem metric_eligibility_characterization :
    (∀ (e : Entities) (p : DataProfile),
      (pyLower (pyStrip e.requested_metric) = "" ∨
        pyLower (pyStrip e.requested_metric) = "unknown") →
      isSupportedMetricRequest e p = true) ∧
    (∀ (e : Entities) (p : DataProfile),
      pyLower (pyStrip e.requested_metric) ≠ "" →
      pyLower (pyStrip e.requested_metric) ≠ "unknown" →
      p.supportedMetrics (pyLower (pyStrip e.requested_metric)) = none →
      isSupportedMetricRequest e p = false) ∧
    (∀ (e : Entities) (p : DataProfile) (req : List String),
      pyLower (pyStrip e.requested_metric) ≠ "" →
      pyLower (pyStrip e.requested_metric) ≠ "unknown" →
      p.supportedMetrics (pyLower (pyStrip e.requested_metric)) = some req →
      (isSupportedMetricRequest e p = true ↔
        ∀ c ∈ req, p.columns.contains c = true)) ∧
    (∀ cols : List String, ¬ "profit" ∈ cols →
      isSupportedMetricRequest { requested_metric := "pnl" }
        { columns := cols, supportedMetrics := SUPPORTED_METRICS } = false) ∧
    (∀ p : DataProfile,
      isSupportedMetricRequest { requested_metric := "unknown" } p = true) := by
  refine ⟨?_, ?_, ?_, ?_, ?_⟩
  · intro e p h
    simp only [isSupportedMetricRequest]
    rcases h with h | h <;> rw [if_pos (by simp [h])]
  · intro e p h1 h2 h3
    simp only [isSupportedMetricRequest]
    rw [if_neg (by simp [h1, h2])]
    rw [h3]
  · intro e p req h1 h2 h3
    simp only [isSupportedMetricRequest]
    rw [if_neg (by simp [h1, h2])]
    rw [h3]
    simp [List.all_eq_true]
  · intro cols h
    have hc : cols.contains "profit" = false := by simpa using h
    have hm : pyLower (pyStrip "pnl") = "pnl" := by decide
    simp only [isSupportedMetricRequest]
    rw [hm]
    rw [if_neg (by decide)]
    show (["ledger_type", "profit"].all fun column => cols.contains column)
      = false
    simp only [List.all_cons, List.all_nil, hc, Bool.and_false, Bool.and_true]
  · intro p
    simp only [isSupportedMetricRequest]
    rw [if_pos (by decide)]

/-- Witness for C7: with the shipped registry, `"pnl"` is ineligible when the
columns lack `"profit"`, and `"unknown"` is eligible on the empty profile. -/
theorem metric_eligibility_witness :
    isSupportedMetricRequest { requested_metric := "pnl" }
      { columns := ["ledger_type"], supportedMetrics := SUPPORTED_METRICS }
      = false ∧
    isSupportedMetricRequest { requested_metric := "unknown" } {} = true :=
  ⟨metric_eligibility_characterization.2.2.2.1 ["ledger_type"] (by decide),
   metric_eligibility_characterization.2.2.2.2 {}⟩
